import Mathlib

/-!
Verification development for the pulp_rpm synchronization pipeline
(`pulp_rpm/app/tasks/synchronizing.py` and `pulp_rpm/app/tasks/utils.py`).

The Python source is shallowly embedded: the asynchronous fetch-group
machinery of `RpmFirstStage.run` is modelled as a deterministic function
parameterized by the order in which fetch groups complete (a list of
group indices), external collaborators (the downloader and the
createrepo_c XML readers) are modelled as an explicit environment of
functions, and Django bulk inserts are modelled as lists of rows tagged
with the foreign key they are attached to.
-/

namespace PulpRpm

/-! ## Small string utilities used by the source (os.path.basename, str.strip,
urljoin), implemented by structural recursion over the character list so that
a concrete evaluation reduces in the kernel. -/

/-- Whether the first character list is a prefix of the second. -/
def charsPrefix : List Char → List Char → Bool
  | [], _ => true
  | _ :: _, [] => false
  | a :: as, b :: bs => a == b && charsPrefix as bs

/-- Whether p is a prefix of s (model of str.startswith on these inputs). -/
def strPrefix (p s : String) : Bool := charsPrefix p.data s.data

/-- Split a character list on a separator character (semantics of
String.splitOn for a one-character separator). -/
def splitChar (sep : Char) : List Char → List (List Char)
  | [] => [[]]
  | c :: rest =>
      let r := splitChar sep rest
      if c == sep then [] :: r
      else
        match r with
        | [] => [[c]]
        | h :: t => (c :: h) :: t

/-- Join character-list segments with slashes (inverse of splitChar for the
slash character). -/
def joinSlash : List (List Char) → List Char
  | [] => []
  | [x] => x
  | x :: rest => x ++ '/' :: joinSlash rest

/-- Model of `os.path.basename`: the part of the path after the last slash. -/
def basename (s : String) : String :=
  String.mk ((splitChar '/' s.data).getLastD s.data)

/-- Model of Python `s.strip("/")`: drop leading and trailing slash characters. -/
def stripSlashes (s : String) : String :=
  String.mk (((s.data.dropWhile (fun c => c == '/')).reverse.dropWhile
    (fun c => c == '/')).reverse)

/-- Drop everything after the last slash of a URL, keeping the slash. -/
def dropLastSegment (s : String) : String :=
  let parts := splitChar '/' s.data
  if parts.length ≤ 1 then s
  else String.mk (joinSlash parts.dropLast ++ ['/'])

/-- Split a URL at the first scheme separator, when present. -/
def splitScheme : List Char → Option (List Char × List Char)
  | [] => none
  | ':' :: '/' :: '/' :: rest => some ([], rest)
  | c :: rest => (splitScheme rest).map (fun pr => (c :: pr.1, pr.2))

/-- The scheme-and-host part of a URL: everything before the first slash of
the part after the scheme separator. -/
def schemeHost (s : String) : String :=
  match splitScheme s.data with
  | some (scheme, rest) =>
      String.mk (scheme ++ [':', '/', '/'] ++ rest.takeWhile (fun c => !(c == '/')))
  | none => s

/-- Model of `urllib.parse.urljoin` on the URL shapes this program uses: a
relative reference is resolved against the base with its last segment
dropped, a root-relative reference replaces the base path, an absolute URL
replaces the base. -/
def urljoin (base rel : String) : String :=
  if rel = "" then base
  else if strPrefix "http://" rel || strPrefix "https://" rel then rel
  else if strPrefix "/" rel then schemeHost base ++ rel
  else dropLastSegment base ++ rel

/-! ## SHA-256 (model of Python hashlib.sha256, operating on UTF-8 bytes as Nat lists) -/

/-- Reduce a natural number to a 32-bit word. -/
def w32 (n : Nat) : Nat := n % 4294967296

/-- Rotate a 32-bit word right by n bits. -/
def rotr (n x : Nat) : Nat := w32 ((x >>> n) ||| (x <<< (32 - n)))

/-- SHA-256 Ch function. -/
def shaCh (x y z : Nat) : Nat := (x &&& y) ^^^ ((x ^^^ 4294967295) &&& z)

/-- SHA-256 Maj function. -/
def shaMaj (x y z : Nat) : Nat := (x &&& y) ^^^ (x &&& z) ^^^ (y &&& z)

/-- SHA-256 big sigma 0. -/
def bigSigma0 (x : Nat) : Nat := (rotr 2 x) ^^^ (rotr 13 x) ^^^ (rotr 22 x)

/-- SHA-256 big sigma 1. -/
def bigSigma1 (x : Nat) : Nat := (rotr 6 x) ^^^ (rotr 11 x) ^^^ (rotr 25 x)

/-- SHA-256 small sigma 0. -/
def smallSigma0 (x : Nat) : Nat := (rotr 7 x) ^^^ (rotr 18 x) ^^^ (x >>> 3)

/-- SHA-256 small sigma 1. -/
def smallSigma1 (x : Nat) : Nat := (rotr 17 x) ^^^ (rotr 19 x) ^^^ (x >>> 10)

/-- The 64 SHA-256 round constants, written in decimal. -/
def shaK : List Nat :=
  [1116352408, 1899447441, 3049323471, 3921009573, 961987163,
   1508970993, 2453635748, 2870763221, 3624381080, 310598401,
   607225278, 1426881987, 1925078388, 2162078206, 2614888103,
   3248222580, 3835390401, 4022224774, 264347078, 604807628,
   770255983, 1249150122, 1555081692, 1996064986, 2554220882,
   2821834349, 2952996808, 3210313671, 3336571891, 3584528711,
   113926993, 338241895, 666307205, 773529912, 1294757372,
   1396182291, 1695183700, 1986661051, 2177026350, 2456956037,
   2730485921, 2820302411, 3259730800, 3345764771, 3516065817,
   3600352804, 4094571909, 275423344, 430227734, 506948616,
   659060556, 883997877, 958139571, 1322822218, 1537002063,
   1747873779, 1955562222, 2024104815, 2227730452, 2361852424,
   2428436474, 2756734187, 3204031479, 3329325298]

/-- The SHA-256 initial hash value, written in decimal. -/
def shaH0 : List Nat :=
  [1779033703, 3144134277, 1013904242, 2773480762, 1359893119,
   2600822924, 528734635, 1541459225]

/-- Message padding: append 0x80, zero bytes, and the 64-bit big-endian bit length. -/
def shaPad (msg : List Nat) : List Nat :=
  let l := msg.length
  let k := (55 + 64 - (l % 64)) % 64
  let lenBytes := (List.range 8).map (fun i => ((8 * l) >>> (8 * (7 - i))) &&& 255)
  msg ++ [128] ++ List.replicate k 0 ++ lenBytes

/-- Group a byte list into 32-bit big-endian words. -/
def bytesToWords : List Nat → List Nat
  | b0 :: b1 :: b2 :: b3 :: rest =>
      ((((b0 <<< 8) ||| b1) <<< 8 ||| b2) <<< 8 ||| b3) :: bytesToWords rest
  | _ => []

/-- Split a word list into chunks of 16 words. -/
def chunk16 (ws : List Nat) : List (List Nat) :=
  if h : ws = [] then []
  else ws.take 16 :: chunk16 (ws.drop 16)
termination_by ws.length
decreasing_by
  simp only [List.length_drop]
  have : 0 < ws.length := List.length_pos.mpr h
  omega

/-- Extend a 16-word block to the 64-word message schedule, n words at a time. -/
def extendSchedule : Nat → List Nat → List Nat
  | 0, ws => ws
  | n + 1, ws =>
      let l := ws.length
      let t := w32 (smallSigma1 (ws.getD (l - 2) 0) + ws.getD (l - 7) 0 +
                    smallSigma0 (ws.getD (l - 15) 0) + ws.getD (l - 16) 0)
      extendSchedule n (ws ++ [t])

/-- One SHA-256 working state. -/
structure ShaState where
  a : Nat
  b : Nat
  c : Nat
  d : Nat
  e : Nat
  f : Nat
  g : Nat
  h : Nat
deriving Repr, DecidableEq

/-- One SHA-256 compression round, consuming a (constant, schedule word) pair. -/
def shaRound (s : ShaState) (kw : Nat × Nat) : ShaState :=
  let t1 := w32 (s.h + bigSigma1 s.e + shaCh s.e s.f s.g + kw.1 + kw.2)
  let t2 := w32 (bigSigma0 s.a + shaMaj s.a s.b s.c)
  ⟨w32 (t1 + t2), s.a, s.b, s.c, w32 (s.d + t1), s.e, s.f, s.g⟩

/-- Compress one 16-word block into the running 8-word hash value. -/
def shaCompress (hv : List Nat) (block : List Nat) : List Nat :=
  let ws := extendSchedule 48 block
  let s0 : ShaState := ⟨hv.getD 0 0, hv.getD 1 0, hv.getD 2 0, hv.getD 3 0,
                        hv.getD 4 0, hv.getD 5 0, hv.getD 6 0, hv.getD 7 0⟩
  let s := (shaK.zip ws).foldl shaRound s0
  [w32 (hv.getD 0 0 + s.a), w32 (hv.getD 1 0 + s.b), w32 (hv.getD 2 0 + s.c),
   w32 (hv.getD 3 0 + s.d), w32 (hv.getD 4 0 + s.e), w32 (hv.getD 5 0 + s.f),
   w32 (hv.getD 6 0 + s.g), w32 (hv.getD 7 0 + s.h)]

/-- SHA-256 of a byte list, as the 8-word final hash value. -/
def sha256Words (msg : List Nat) : List Nat :=
  (chunk16 (bytesToWords (shaPad msg))).foldl shaCompress shaH0

/-- A lowercase hexadecimal digit. -/
def hexDigit (n : Nat) : Char :=
  if n < 10 then Char.ofNat (48 + n) else Char.ofNat (87 + n)

/-- Render the low n hex digits of a value, most significant first. -/
def toHexNat : Nat → Nat → String
  | 0, _ => ""
  | n + 1, v => toHexNat n (v >>> 4) ++ String.mk [hexDigit (v &&& 15)]

/-- UTF-8 encoding of one code point. -/
def utf8EncodeChar (c : Nat) : List Nat :=
  if c < 128 then [c]
  else if c < 2048 then [192 ||| (c >>> 6), 128 ||| (c &&& 63)]
  else if c < 65536 then
    [224 ||| (c >>> 12), 128 ||| ((c >>> 6) &&& 63), 128 ||| (c &&& 63)]
  else
    [240 ||| (c >>> 18), 128 ||| ((c >>> 12) &&& 63), 128 ||| ((c >>> 6) &&& 63), 128 ||| (c &&& 63)]

/-- UTF-8 bytes of a string (model of Python str.encode, used by hashlib). -/
def utf8Bytes (s : String) : List Nat :=
  s.data.flatMap (fun ch => utf8EncodeChar ch.toNat)

/-- Model of `hashlib.sha256(text.encode("utf-8")).hexdigest()`. -/
def sha256Hex (text : String) : String :=
  String.join ((sha256Words (utf8Bytes text)).map (toHexNat 8))

/-! ## Data model

Checksum types come from `pulp_rpm.app.constants.CHECKSUM_TYPES` and the
content models from `pulp_rpm.app.models`; neither module is part of the
sources here, so their shapes are modelled from the spec (section 3: a
Package's fields, an UpdateRecord's id/digest/collections/references, the
checksum-typed artifact reference). -/

/-- Modelled from the spec: the checksum type names of CHECKSUM_TYPES
(`pulp_rpm.app.constants` is not among the sources). -/
inductive ChecksumType
  | md5
  | sha1
  | sha224
  | sha256
  | sha384
  | sha512
deriving Repr, DecidableEq

/-- A parsed createrepo_c package record (the fields this pipeline reads). -/
structure CrPackage where
  pkgId : String
  name : String
  epoch : String
  version : String
  release : String
  arch : String
  location_href : String
  size_package : Nat
  checksum_type : ChecksumType
  files : List String
  changelogs : List String
deriving Repr, DecidableEq

/-- Modelled from the spec: the Package content model of `pulp_rpm.app.models`
(not among the sources); fields per spec section 3. -/
structure Package where
  name : String
  epoch : String
  version : String
  release : String
  arch : String
  pkgId : String
  checksum_type : ChecksumType
  size_package : Nat
  location_href : String
deriving Repr, DecidableEq

/-- Modelled from the spec: `Package.createrepo_to_dict` (in `pulp_rpm.app.models`,
not among the sources) copies the createrepo_c fields into model fields. -/
def Package.createrepo_to_dict (p : CrPackage) : Package :=
  ⟨p.name, p.epoch, p.version, p.release, p.arch, p.pkgId, p.checksum_type,
   p.size_package, p.location_href⟩

/-- A parsed createrepo_c update-collection package entry (NEVRA-like fields). -/
structure CrUpdateCollectionPackage where
  name : String
  epoch : String
  version : String
  release : String
  arch : String
  filename : String
deriving Repr, DecidableEq

/-- A parsed createrepo_c update collection. -/
structure CrUpdateCollection where
  name : String
  shortname : String
  packages : List CrUpdateCollectionPackage
deriving Repr, DecidableEq

/-- A parsed createrepo_c update reference. -/
structure CrUpdateReference where
  href : String
  ref_id : String
  title : String
  ref_type : String
deriving Repr, DecidableEq

/-- A parsed createrepo_c update record. -/
structure CrUpdateRecord where
  id : String
  title : String
  updated_date : String
  collections : List CrUpdateCollection
  references : List CrUpdateReference
deriving Repr, DecidableEq

/-- Modelled from the spec: the UpdateCollection content model. -/
structure UpdateCollection where
  name : String
  shortname : String
deriving Repr, DecidableEq

/-- Modelled from the spec: the UpdateCollectionPackage content model. -/
structure UpdateCollectionPackage where
  name : String
  epoch : String
  version : String
  release : String
  arch : String
  filename : String
deriving Repr, DecidableEq

/-- Modelled from the spec: the UpdateReference content model. -/
structure UpdateReference where
  href : String
  ref_id : String
  title : String
  ref_type : String
deriving Repr, DecidableEq

/-- Modelled from the spec: the UpdateRecord content model; `collectionsCount`
and `referencesCount` stand for the counts of already-persisted related rows
that `update_record.collections.count()` / `.references.count()` report. -/
structure UpdateRecord where
  id : String
  title : String
  updated_date : String
  digest : String
  collectionsCount : Nat
  referencesCount : Nat
deriving Repr, DecidableEq

/-- Modelled from the spec: `UpdateRecord.createrepo_to_dict` copies the scalar
record fields (a fresh record has no digest yet and no persisted relations). -/
def UpdateRecord.createrepo_to_dict (u : CrUpdateRecord) : UpdateRecord :=
  ⟨u.id, u.title, u.updated_date, "", 0, 0⟩

/-- Modelled from the spec: `UpdateCollection.createrepo_to_dict`. -/
def UpdateCollection.createrepo_to_dict (c : CrUpdateCollection) : UpdateCollection :=
  ⟨c.name, c.shortname⟩

/-- Modelled from the spec: `UpdateCollectionPackage.createrepo_to_dict`. -/
def UpdateCollectionPackage.createrepo_to_dict (p : CrUpdateCollectionPackage) :
    UpdateCollectionPackage :=
  ⟨p.name, p.epoch, p.version, p.release, p.arch, p.filename⟩

/-- Modelled from the spec: `UpdateReference.createrepo_to_dict`. -/
def UpdateReference.createrepo_to_dict (r : CrUpdateReference) : UpdateReference :=
  ⟨r.href, r.ref_id, r.title, r.ref_type⟩

/-! ## Kickstart data (shape produced by `KickstartData.to_dict` in utils.py) -/

/-- The `distribution_tree` entry of the kickstart dict (utils.py). -/
structure DistTreeData where
  header_version : String
  release_name : String
  release_short : String
  release_version : String
  arch : String
  build_timestamp : String
deriving Repr, DecidableEq

/-- One entry of the kickstart `addons` list (utils.py `KickstartData.addons`). -/
structure AddonData where
  addon_id : String
  uid : String
  name : String
  type : String
  packages : String
deriving Repr, DecidableEq

/-- One entry of the kickstart `variants` list (utils.py `KickstartData.variants`). -/
structure VariantData where
  variant_id : String
  uid : String
  name : String
  type : String
  packages : String
deriving Repr, DecidableEq

/-- One entry of the kickstart `checksums` list. -/
structure ChecksumData where
  path : String
  checksum : String
deriving Repr, DecidableEq

/-- One entry of the kickstart `images` list. -/
structure ImageData where
  name : String
  path : String
  platform : String
deriving Repr, DecidableEq

/-- The kickstart dict assembled by `KickstartData.to_dict`. -/
structure KickstartData where
  distribution_tree : DistTreeData
  checksums : List ChecksumData
  images : List ImageData
  variants : List VariantData
  addons : List AddonData
deriving Repr, DecidableEq

/-! ## Remote, artifacts, declarative content -/

/-- Download policies of a remote (`Remote.IMMEDIATE` and the deferred ones). -/
inductive Policy
  | immediate
  | on_demand
  | streamed
deriving Repr, DecidableEq

/-- The remote settings this pipeline reads. -/
structure RpmRemote where
  name : String
  url : String
  policy : Policy
deriving Repr, DecidableEq

/-- Model of `deferred_download = (remote.policy != Remote.IMMEDIATE)` in
`synchronize`. -/
def deferredDownload (remote : RpmRemote) : Bool :=
  !(remote.policy == Policy.immediate)

/-- An Artifact as built in `run`: `Artifact(size=...)` followed by
`setattr(artifact, checksum_type, package.pkgId)`, modelled as the size plus
the one checksum attribute that was set. -/
structure Artifact where
  size : Nat
  checksum : Option (ChecksumType × String)
deriving Repr, DecidableEq

/-- A DeclarativeArtifact (pending artifact). -/
structure DeclarativeArtifact where
  artifact : Artifact
  url : String
  relative_path : String
  remote : RpmRemote
  deferred_download : Bool
deriving Repr, DecidableEq

/-- The content unit wrapped by a declarative-content node. -/
inductive ContentUnit
  | package : Package → ContentUnit
  | updateRecord : UpdateRecord → ContentUnit
  | distributionTree : DistTreeData → ContentUnit
deriving Repr, DecidableEq

/-- The future relations carried on an UpdateRecord node: the defaultdict
mapping each UpdateCollection to its packages (insertion order, only
collections that received at least one package), plus the references list. -/
structure FutureRelations where
  collections : List (UpdateCollection × List UpdateCollectionPackage)
  references : List UpdateReference
deriving Repr, DecidableEq

/-- The `extra_data` side channel of a declarative-content node. -/
inductive ExtraData
  | missing
  | kick : KickstartData → ExtraData
  | relations : FutureRelations → ExtraData
deriving Repr, DecidableEq

/-- A DeclarativeContent node. -/
structure DeclarativeContent where
  content : ContentUnit
  d_artifacts : List DeclarativeArtifact
  extra_data : ExtraData
deriving Repr, DecidableEq

/-! ## Constants -/

/-- Modelled from the spec: `PACKAGE_REPODATA` from `pulp_rpm.app.constants`
(not among the sources); the spec fixes the package-metadata types as exactly
primary, filelists, other. -/
def PACKAGE_REPODATA : List String := ["primary", "filelists", "other"]

/-- Modelled from the spec: `UPDATE_REPODATA` from `pulp_rpm.app.constants`
(not among the sources). -/
def UPDATE_REPODATA : List String := ["updateinfo"]

/-! ## Environment: downloader and createrepo_c readers as functions -/

/-- The external collaborators of `RpmFirstStage.run`: `path` maps a URL to
the downloaded local path; `primary`, `filelists`, `other` and `updates` are
the createrepo_c file readers applied to a local path. -/
structure Env where
  path : String → String
  primary : String → List CrPackage
  filelists : String → List (String × List String)
  other : String → List (String × List String)
  updates : String → List CrUpdateRecord

/-! ## parse_repodata -/

/-- Python dict assignment on an insertion-ordered association list:
overwriting an existing key keeps its position, a new key is appended. -/
def dictSet {β : Type} (m : List (String × β)) (k : String) (v : β) : List (String × β) :=
  if m.any (fun e => e.1 == k) then m.map (fun e => if e.1 == k then (k, v) else e)
  else m ++ [(k, v)]

/-- The `pkgcb` phase of `parse_repodata`: each primary-file package is stored
under its pkgId, `packages[pkg.pkgId] = pkg`. -/
def primaryFold (pkgs : List CrPackage) : List (String × CrPackage) :=
  pkgs.foldl (fun m pkg => dictSet m pkg.pkgId pkg) []

/-- Append file entries to a package, as the filelists parse does to the
package returned by `newpkgcb`. -/
def addFiles (p : CrPackage) (fs : List String) : CrPackage :=
  { p with files := p.files ++ fs }

/-- Append changelog entries to a package, as the other.xml parse does. -/
def addChangelogs (p : CrPackage) (cs : List String) : CrPackage :=
  { p with changelogs := p.changelogs ++ cs }

/-- The `newpkgcb` phase for filelists.xml: a record whose pkgId is unknown is
skipped (`packages.get(pkgId, None)` returns None), a known one has its file
data merged into the stored package. -/
def applyFilelists (m : List (String × CrPackage)) :
    List (String × List String) → List (String × CrPackage)
  | [] => m
  | (pid, fs) :: rest =>
      match m.lookup pid with
      | none => applyFilelists m rest
      | some _ =>
          applyFilelists (m.map (fun e => if e.1 == pid then (e.1, addFiles e.2 fs) else e)) rest

/-- The `newpkgcb` phase for other.xml, analogous to `applyFilelists`. -/
def applyOther (m : List (String × CrPackage)) :
    List (String × List String) → List (String × CrPackage)
  | [] => m
  | (pid, cs) :: rest =>
      match m.lookup pid with
      | none => applyOther m rest
      | some _ =>
          applyOther (m.map (fun e => if e.1 == pid then (e.1, addChangelogs e.2 cs) else e)) rest

/-- Model of `RpmFirstStage.parse_repodata`: parse primary first (establishing
the pkgId universe), then merge filelists and other data into it. -/
def parse_repodata (env : Env) (primary_xml_path filelists_xml_path other_xml_path : String) :
    List (String × CrPackage) :=
  let packages := primaryFold (env.primary primary_xml_path)
  let packages := applyFilelists packages (env.filelists filelists_xml_path)
  applyOther packages (env.other other_xml_path)

/-! ## hash_update_record -/

/-- Modelled from the spec: the canonical XML rendering of one update record by
createrepo_c (`UpdateInfo.xml_dump`, an external serializer). -/
def xmlDumpUpdateRecord (u : CrUpdateRecord) : String :=
  "<update><id>" ++ u.id ++ "</id><title>" ++ u.title ++ "</title><updated>" ++
    u.updated_date ++ "</updated></update>"

/-- Modelled from the spec: `UpdateInfo.xml_dump` over the records appended to
an UpdateInfo container. -/
def xmlDumpUpdateInfo (records : List CrUpdateRecord) : String :=
  "<updates>" ++ String.join (records.map xmlDumpUpdateRecord) ++ "</updates>"

/-- Model of `RpmFirstStage.hash_update_record`: append the single record to a
fresh UpdateInfo, dump it to XML, and take the SHA-256 hex digest. -/
def hash_update_record (update : CrUpdateRecord) : String :=
  sha256Hex (xmlDumpUpdateInfo ([] ++ [update]))

/-! ## The coordinator: classification, fetch groups, emission -/

/-- A record of the root index (repomd.xml): a declared type and a location. -/
structure RepomdRecord where
  type : String
  location_href : String
deriving Repr, DecidableEq

/-- The classification loop of `run`: package-metadata types go into the
`package_repodata_urls` dict (assignment semantics), update-metadata types are
appended to the update URL list in record order, unknown types are skipped. -/
def classifyRecords (remote_url : String) (records : List RepomdRecord) :
    List (String × String) × List String :=
  records.foldl
    (fun acc record =>
      if record.type ∈ PACKAGE_REPODATA then
        (dictSet acc.1 record.type (urljoin remote_url record.location_href), acc.2)
      else if record.type ∈ UPDATE_REPODATA then
        (acc.1, acc.2 ++ [urljoin remote_url record.location_href])
      else acc)
    ([], [])

/-- The loop creating the package-repodata downloaders: each type of
PACKAGE_REPODATA is looked up in `package_repodata_urls`; a missing type
raises KeyError (modelled as the error naming the type). -/
def packageGroupUrls (urls : List (String × String)) : List String → Except String (List String)
  | [] => .ok []
  | t :: ts =>
      match urls.lookup t with
      | none => .error t
      | some u => (packageGroupUrls urls ts).map (fun rest => u :: rest)

/-- The errors `run` can raise in the modelled fragment: the KeyError for a
missing package-metadata type, and the IndexError of reading `results[1]` or
`results[2]` from a group that does not have them. -/
inductive RunError
  | keyError : String → RunError
  | indexError : RunError
deriving Repr, DecidableEq

/-- A record of one extractor invocation, for stating when parsing happens and
with which downloaded paths. -/
inductive ParseCall
  | repodata : String → String → String → ParseCall
  | updateinfo : String → ParseCall
deriving Repr, DecidableEq

/-- The package emission loop of `run` for one parsed package record: build the
Package model, an Artifact carrying the size and the checksum-typed pkgId, and
one DeclarativeArtifact pointing at the package's own location joined to the
remote URL. -/
def emitPackage (remote : RpmRemote) (remote_url : String) (deferred : Bool)
    (pkg : CrPackage) : DeclarativeContent :=
  let package := Package.createrepo_to_dict pkg
  let artifact : Artifact := ⟨package.size_package, some (package.checksum_type, package.pkgId)⟩
  let url := urljoin remote_url package.location_href
  let filename := basename package.location_href
  let da : DeclarativeArtifact := ⟨artifact, url, filename, remote, deferred⟩
  ⟨ContentUnit.package package, [da], ExtraData.missing⟩

/-- The package emission loop over `packages.values()`. -/
def emitPackages (remote : RpmRemote) (remote_url : String) (deferred : Bool)
    (packages : List (String × CrPackage)) : List DeclarativeContent :=
  packages.map (fun e => emitPackage remote remote_url deferred e.2)

/-- The `future_relations` collections defaultdict: iterating the record's
collections, a dict key appears the first time a package is appended to it, so
only collections with at least one package are carried. -/
def collectFutureCollections (cs : List CrUpdateCollection) :
    List (UpdateCollection × List UpdateCollectionPackage) :=
  (cs.filter (fun c => !c.packages.isEmpty)).map
    (fun c => (UpdateCollection.createrepo_to_dict c,
               c.packages.map UpdateCollectionPackage.createrepo_to_dict))

/-- The update emission loop of `run` for one parsed update record: build the
UpdateRecord model, set its digest, and carry the future relations as extra
data. -/
def emitUpdate (update : CrUpdateRecord) : DeclarativeContent :=
  let base := UpdateRecord.createrepo_to_dict update
  let update_record : UpdateRecord := { base with digest := hash_update_record update }
  let future_relations : FutureRelations :=
    ⟨collectFutureCollections update.collections,
     update.references.map UpdateReference.createrepo_to_dict⟩
  ⟨ContentUnit.updateRecord update_record, [], ExtraData.relations future_relations⟩

/-- The update emission loop over a parsed updateinfo file. -/
def emitUpdates (updates : List CrUpdateRecord) : List DeclarativeContent :=
  updates.map emitUpdate

/-- Handling of one completed fetch group in the while loop of `run`. The
dispatch compares `results[0].url` first with `package_repodata_urls["primary"]`
and then with the variable `updateinfo_url`, which after the classification
loop holds the URL of the LAST update-metadata record (or is unbound when
there is none, modelled as `none`). -/
def processGroup (env : Env) (remote : RpmRemote) (remote_url : String) (deferred : Bool)
    (primaryUrl : String) (updateinfo_url : Option String) (g : List String) :
    Except RunError (List DeclarativeContent × List ParseCall) :=
  let results := g.map (fun u => (u, env.path u))
  match results with
  | [] => .ok ([], [])
  | (u0, p0) :: rest =>
      if u0 == primaryUrl then
        match rest with
        | (_, p1) :: (_, p2) :: _ =>
            let packages := parse_repodata env p0 p1 p2
            .ok (emitPackages remote remote_url deferred packages,
                 [ParseCall.repodata p0 p1 p2])
        | _ => .error RunError.indexError
      else if some u0 == updateinfo_url then
        let updates := env.updates p0
        .ok (emitUpdates updates, [ParseCall.updateinfo p0])
      else
        .ok ([], [])

/-- The output of a coordinator run: the emitted stream, the trace of extractor
invocations, and the terminal error if the run raised. -/
structure RunOutput where
  stream : List DeclarativeContent
  calls : List ParseCall
  err : Option RunError
deriving Repr, DecidableEq

/-- The while loop of `run`: fetch groups complete in the order given by
`order` (indices into the group list); each completed group is handled by
`processGroup`, and an exception ends the run. -/
def processGroups (env : Env) (remote : RpmRemote) (remote_url : String) (deferred : Bool)
    (primaryUrl : String) (updateinfo_url : Option String) (groups : List (List String)) :
    List Nat → RunOutput
  | [] => ⟨[], [], none⟩
  | i :: rest =>
      match groups[i]? with
      | none => processGroups env remote remote_url deferred primaryUrl updateinfo_url groups rest
      | some g =>
          match processGroup env remote remote_url deferred primaryUrl updateinfo_url g with
          | .error e => ⟨[], [], some e⟩
          | .ok (dcs, calls) =>
              let o := processGroups env remote remote_url deferred primaryUrl updateinfo_url
                groups rest
              ⟨dcs ++ o.stream, calls ++ o.calls, o.err⟩

/-- The `remote_url` computation at the top of `run`: the url path stripped of
slashes with one trailing slash restored (when nonempty), joined to the remote
base URL. -/
def runRemoteUrl (remote : RpmRemote) (url_path : String) : String :=
  urljoin remote.url (if url_path ≠ "" then stripSlashes url_path ++ "/" else url_path)

/-- The distribution-tree node emitted right after the repomd fetch when
kickstart data was supplied: its content is
`DistributionTree(**kickstart["distribution_tree"])` and its extra data is the
whole kickstart dict. -/
def kickDcsOf : Option KickstartData → List DeclarativeContent
  | some k => [⟨ContentUnit.distributionTree k.distribution_tree, [], ExtraData.kick k⟩]
  | none => []

/-- Model of `RpmFirstStage.run`. The repomd fetch is modelled by handing the
parsed index records directly; `order` is the order in which the fetch groups
complete (a permutation of the group indices); a group completes as a unit
because `asyncio.gather` delivers all of its results together, in submission
order. The kickstart distribution-tree node, when present, is emitted before
the group loop. -/
def runModel (remote : RpmRemote) (deferred : Bool) (url_path : String)
    (kickstart : Option KickstartData) (env : Env) (records : List RepomdRecord)
    (order : List Nat) : RunOutput :=
  let remote_url := runRemoteUrl remote url_path
  let kickDcs : List DeclarativeContent := kickDcsOf kickstart
  let classified := classifyRecords remote_url records
  let package_repodata_urls := classified.1
  let updateUrls := classified.2
  let updateinfo_url := updateUrls.getLast?
  match packageGroupUrls package_repodata_urls PACKAGE_REPODATA with
  | .error t => ⟨kickDcs, [], some (RunError.keyError t)⟩
  | .ok pkgUrls =>
      let groups := updateUrls.map (fun u => [u]) ++ [pkgUrls]
      let primaryUrl := (package_repodata_urls.lookup "primary").getD ""
      let o := processGroups env remote remote_url deferred primaryUrl updateinfo_url groups order
      ⟨kickDcs ++ o.stream, o.calls, o.err⟩

/-! ## RpmContentSaver._post_save

Django foreign-key assignment (`instance.update_record = update_record`,
`instance.distribution_tree = distribution_tree`) is modelled by tagging each
bulk-inserted row with the identity it was attached to. -/

/-- An Addon row attached to its distribution tree. -/
structure SavedAddon where
  tree : DistTreeData
  addon : AddonData
deriving Repr, DecidableEq

/-- A Checksum row attached to its distribution tree. -/
structure SavedChecksum where
  tree : DistTreeData
  checksum : ChecksumData
deriving Repr, DecidableEq

/-- An Image row attached to its distribution tree. -/
structure SavedImage where
  tree : DistTreeData
  image : ImageData
deriving Repr, DecidableEq

/-- A Variant row attached to its distribution tree. -/
structure SavedVariant where
  tree : DistTreeData
  variant : VariantData
deriving Repr, DecidableEq

/-- An UpdateCollection row attached to its update record (by errata id). -/
structure SavedCollection where
  record_id : String
  collection : UpdateCollection
deriving Repr, DecidableEq

/-- An UpdateCollectionPackage row attached to its collection (whose own
update-record attachment is the errata id). -/
structure SavedCollectionPackage where
  record_id : String
  collection : UpdateCollection
  package : UpdateCollectionPackage
deriving Repr, DecidableEq

/-- An UpdateReference row attached to its update record (by errata id). -/
structure SavedReference where
  record_id : String
  reference : UpdateReference
deriving Repr, DecidableEq

/-- The rows bulk-created by one `_post_save` invocation. -/
structure PostSaveOut where
  addons : List SavedAddon
  checksums : List SavedChecksum
  images : List SavedImage
  variants : List SavedVariant
  update_collections : List SavedCollection
  update_collection_packages : List SavedCollectionPackage
  update_references : List SavedReference
deriving Repr, DecidableEq

/-- The empty bulk-create result. -/
def emptyOut : PostSaveOut := ⟨[], [], [], [], [], [], []⟩

/-- Fieldwise concatenation of bulk-create results. -/
def postSaveAppend (x y : PostSaveOut) : PostSaveOut :=
  ⟨x.addons ++ y.addons, x.checksums ++ y.checksums, x.images ++ y.images,
   x.variants ++ y.variants, x.update_collections ++ y.update_collections,
   x.update_collection_packages ++ y.update_collection_packages,
   x.update_references ++ y.update_references⟩

/-- Model of `relations_exist = update_record.collections.count() or
update_record.references.count()` under Python truthiness. -/
def relationsExist (u : UpdateRecord) : Bool :=
  (u.collectionsCount != 0) || (u.referencesCount != 0)

/-- Model of `future_relations.get("collections") or ...` and
`.get("references") or ...`: an UpdateRecord node carries its relations in
extra data; anything else reads as empty. -/
def extraRelations : ExtraData → FutureRelations
  | ExtraData.relations fr => fr
  | _ => ⟨[], []⟩

/-- Model of `_handle_distribution_tree`: each addon, checksum, image and
variant of the carried kickstart data becomes a row attached to the tree. -/
def treeRows (tree : DistTreeData) (kickstart_data : KickstartData) : PostSaveOut :=
  ⟨kickstart_data.addons.map (fun a => ⟨tree, a⟩),
   kickstart_data.checksums.map (fun c => ⟨tree, c⟩),
   kickstart_data.images.map (fun i => ⟨tree, i⟩),
   kickstart_data.variants.map (fun v => ⟨tree, v⟩),
   [], [], []⟩

/-- The update-record relation rows accumulated for one node: each collection
attached to the record, each collection package attached to its collection,
each reference attached to the record. -/
def updateRows (record_id : String) (fr : FutureRelations) : PostSaveOut :=
  ⟨[], [], [], [],
   fr.collections.map (fun cp => ⟨record_id, cp.1⟩),
   fr.collections.flatMap (fun cp => cp.2.map (fun p => ⟨record_id, cp.1, p⟩)),
   fr.references.map (fun r => ⟨record_id, r⟩)⟩

/-- The rows contributed by one batch element of `_post_save`: `None` entries
are skipped, DistributionTree nodes are handled by `_handle_distribution_tree`
(their extra data is the kickstart dict), non-UpdateRecord content contributes
nothing, and an UpdateRecord with already-persisted collections or references
is skipped. -/
def dcRows (dc? : Option DeclarativeContent) : PostSaveOut :=
  match dc? with
  | none => emptyOut
  | some dc =>
      match dc.content with
      | ContentUnit.distributionTree tree =>
          match dc.extra_data with
          | ExtraData.kick k => treeRows tree k
          | _ => emptyOut
      | ContentUnit.package _ => emptyOut
      | ContentUnit.updateRecord update_record =>
          if relationsExist update_record then emptyOut
          else updateRows update_record.id (extraRelations dc.extra_data)

/-- Model of `RpmContentSaver._post_save` over a batch: the bulk-created rows
are the concatenation, in batch order, of each element's rows. -/
def postSave : List (Option DeclarativeContent) → PostSaveOut
  | [] => emptyOut
  | dc? :: rest => postSaveAppend (dcRows dc?) (postSave rest)

/-! ## synchronize (the nested-tree orchestrator) -/

/-- A repository created for a sub-tree: `Repository(name=f"resource_name-uuid4")`,
with the random uuid modelled by a strictly increasing counter value. -/
structure CreatedRepository where
  resource_name : String
  uid : Nat
deriving Repr, DecidableEq

/-- One completed sub-tree pipeline run: the url path handed to RpmFirstStage
and the uid of the repository the declarative version was created in. -/
structure SubRun where
  url_path : String
  repoUid : Nat
deriving Repr, DecidableEq

/-- The downloader as seen by `synchronize`: probing a URL either succeeds or
raises a ClientResponseError with the given HTTP status. -/
structure ProbeEnv where
  status : String → Option Nat

/-- The URL probed for a sub-tree's root index. -/
def probeUrl (remote : RpmRemote) (packages : String) : String :=
  urljoin remote.url (packages ++ "/repodata/repomd.xml")

/-- The sub-tree loop of `synchronize` over the (resource kind, packages path)
pairs: a repository is created and saved for the resource, then its root index
is probed; a 404 skips the resource (`continue`), any other error status is
re-raised, and on success the full pipeline runs into the new repository
before the loop moves on. Returns the repositories saved (in creation order)
and either the completed sub-runs or the raised status. -/
def processResources (remote : RpmRemote) (env : ProbeEnv) :
    List (String × String) → Nat → List CreatedRepository × Except Nat (List SubRun)
  | [], _ => ([], .ok [])
  | (resource_name, packages) :: rest, counter =>
      let new_repository : CreatedRepository := ⟨resource_name, counter⟩
      match env.status (probeUrl remote packages) with
      | some code =>
          if code = 404 then
            let o := processResources remote env rest (counter + 1)
            (new_repository :: o.1, o.2)
          else ([new_repository], .error code)
      | none =>
          let o := processResources remote env rest (counter + 1)
          (new_repository :: o.1, o.2.map (fun runs => SubRun.mk packages counter :: runs))

/-- The sub-tree resources of a kickstart dict, in the order `synchronize`
iterates them: all addons, then all variants. -/
def kickstartResources (kickstart : KickstartData) : List (String × String) :=
  kickstart.addons.map (fun a => ("addons", a.packages)) ++
    kickstart.variants.map (fun v => ("variants", v.packages))

/-- The errors `synchronize` can raise in the modelled fragment. -/
inductive SyncError
  | noUrl
  | http : Nat → SyncError
deriving Repr, DecidableEq

/-- Decidable equality for Except values, needed to evaluate outcomes. -/
instance exceptDecEq {ε α : Type} [DecidableEq ε] [DecidableEq α] :
    DecidableEq (Except ε α) := fun a b =>
  match a, b with
  | Except.error x, Except.error y =>
      if h : x = y then Decidable.isTrue (congrArg Except.error h)
      else Decidable.isFalse (fun hc => h (Except.error.inj hc))
  | Except.ok x, Except.ok y =>
      if h : x = y then Decidable.isTrue (congrArg Except.ok h)
      else Decidable.isFalse (fun hc => h (Except.ok.inj hc))
  | Except.error _, Except.ok _ => Decidable.isFalse (fun hc => Except.noConfusion hc)
  | Except.ok _, Except.error _ => Decidable.isFalse (fun hc => Except.noConfusion hc)

/-- The outcome of `synchronize`: the repositories persisted by the sub-tree
loop, and either the sub-runs together with the fact that the primary pipeline
ran, or the raised error. -/
structure SyncOutcome where
  savedRepositories : List CreatedRepository
  result : Except SyncError (List SubRun × Bool)
deriving Repr, DecidableEq

/-- Model of `synchronize`: fail on a remote without a URL, run the sub-tree
loop when kickstart data exists, then run the primary pipeline. -/
def synchronizeModel (remote : RpmRemote) (env : ProbeEnv)
    (kickstart : Option KickstartData) : SyncOutcome :=
  if remote.url = "" then ⟨[], .error SyncError.noUrl⟩
  else
    match kickstart with
    | none => ⟨[], .ok ([], true)⟩
    | some k =>
        let o := processResources remote env (kickstartResources k) 0
        match o.2 with
        | .error s => ⟨o.1, .error (SyncError.http s)⟩
        | .ok runs => ⟨o.1, .ok (runs, true)⟩

/-! ## Lemmas about the insertion-ordered dictionary -/

/-- The key sequence of an association list. -/
def keysOf {β : Type} (m : List (String × β)) : List String := m.map Prod.fst

theorem any_key_iff {β : Type} (m : List (String × β)) (k : String) :
    (m.any (fun e => e.1 == k) = true) ↔ k ∈ keysOf m := by
  simp [keysOf, List.any_eq_true, List.mem_map]

theorem keys_map_ite {β : Type} (m : List (String × β)) (k : String) (v : β) :
    keysOf (m.map (fun e => if e.1 == k then (k, v) else e)) = keysOf m := by
  induction m with
  | nil => rfl
  | cons a t ih =>
      simp only [keysOf, List.map_cons] at ih ⊢
      have hh : (if a.1 == k then (k, v) else a).1 = a.1 := by
        split
        · next h => exact (eq_of_beq h).symm
        · rfl
      rw [hh, ih]

theorem keys_map_update {β : Type} (m : List (String × β)) (k : String)
    (g : String × β → β) :
    keysOf (m.map (fun e => if e.1 == k then (e.1, g e) else e)) = keysOf m := by
  induction m with
  | nil => rfl
  | cons a t ih =>
      simp only [keysOf, List.map_cons] at ih ⊢
      have hh : (if a.1 == k then (a.1, g a) else a).1 = a.1 := by
        split
        · rfl
        · rfl
      rw [hh, ih]

theorem keys_dictSet {β : Type} (m : List (String × β)) (k : String) (v : β) :
    keysOf (dictSet m k v) = if k ∈ keysOf m then keysOf m else keysOf m ++ [k] := by
  by_cases h : k ∈ keysOf m
  · rw [if_pos h]
    have ha : (m.any (fun e => e.1 == k)) = true := (any_key_iff m k).mpr h
    simp only [dictSet, ha, if_true]
    exact keys_map_ite m k v
  · rw [if_neg h]
    have ha : (m.any (fun e => e.1 == k)) = false := by
      cases ht : (m.any fun e => e.1 == k) with
      | false => rfl
      | true => exact absurd ((any_key_iff m k).mp ht) h
    simp only [dictSet, ha, Bool.false_eq_true, if_false]
    simp [keysOf]

theorem mem_keys_dictSet {β : Type} (m : List (String × β)) (k : String) (v : β)
    (a : String) : a ∈ keysOf (dictSet m k v) ↔ a ∈ keysOf m ∨ a = k := by
  rw [keys_dictSet]
  by_cases h : k ∈ keysOf m
  · rw [if_pos h]
    constructor
    · exact Or.inl
    · rintro (ha | rfl)
      · exact ha
      · exact h
  · rw [if_neg h]
    simp

theorem nodup_keys_dictSet {β : Type} (m : List (String × β)) (k : String) (v : β)
    (h : (keysOf m).Nodup) : (keysOf (dictSet m k v)).Nodup := by
  rw [keys_dictSet]
  by_cases hk : k ∈ keysOf m
  · rwa [if_pos hk]
  · rw [if_neg hk]
    simp [List.nodup_append, h, hk]

theorem lookup_isSome_iff {β : Type} (m : List (String × β)) (k : String) :
    ((m.lookup k).isSome = true) ↔ k ∈ keysOf m := by
  induction m with
  | nil => simp [List.lookup, keysOf]
  | cons a t ih =>
      obtain ⟨k', v⟩ := a
      by_cases hk : k = k'
      · subst hk
        simp [List.lookup, keysOf]
      · have hb : (k == k') = false := by simp [hk]
        simp only [List.lookup, hb, cond_false]
        rw [ih]
        simp [keysOf, hk]

/-! ## Lemmas about parse_repodata -/

theorem mem_keys_primary_foldl (pkgs : List CrPackage) (m : List (String × CrPackage))
    (k : String) :
    k ∈ keysOf (pkgs.foldl (fun acc pkg => dictSet acc pkg.pkgId pkg) m)
      ↔ k ∈ keysOf m ∨ k ∈ pkgs.map CrPackage.pkgId := by
  induction pkgs generalizing m with
  | nil => simp
  | cons p t ih =>
      simp only [List.foldl_cons, List.map_cons, List.mem_cons]
      rw [ih, mem_keys_dictSet]
      tauto

theorem nodup_keys_primary_foldl (pkgs : List CrPackage) (m : List (String × CrPackage))
    (h : (keysOf m).Nodup) :
    (keysOf (pkgs.foldl (fun acc pkg => dictSet acc pkg.pkgId pkg) m)).Nodup := by
  induction pkgs generalizing m with
  | nil => exact h
  | cons p t ih => exact ih _ (nodup_keys_dictSet _ _ _ h)

theorem mem_keys_primaryFold (pkgs : List CrPackage) (k : String) :
    k ∈ keysOf (primaryFold pkgs) ↔ k ∈ pkgs.map CrPackage.pkgId := by
  unfold primaryFold
  rw [mem_keys_primary_foldl]
  simp [keysOf]

theorem nodup_keys_primaryFold (pkgs : List CrPackage) :
    (keysOf (primaryFold pkgs)).Nodup := by
  unfold primaryFold
  exact nodup_keys_primary_foldl pkgs [] (by simp [keysOf])

theorem keys_applyFilelists (fl : List (String × List String)) :
    ∀ m : List (String × CrPackage), keysOf (applyFilelists m fl) = keysOf m := by
  induction fl with
  | nil => intro m; rfl
  | cons e rest ih =>
      intro m
      obtain ⟨pid, fs⟩ := e
      cases h : m.lookup pid with
      | none =>
          simp only [applyFilelists, h]
          exact ih m
      | some v =>
          simp only [applyFilelists, h]
          rw [ih, keys_map_update]

theorem keys_applyOther (cl : List (String × List String)) :
    ∀ m : List (String × CrPackage), keysOf (applyOther m cl) = keysOf m := by
  induction cl with
  | nil => intro m; rfl
  | cons e rest ih =>
      intro m
      obtain ⟨pid, cs⟩ := e
      cases h : m.lookup pid with
      | none =>
          simp only [applyOther, h]
          exact ih m
      | some v =>
          simp only [applyOther, h]
          rw [ih, keys_map_update]

theorem applyFilelists_filter (fl : List (String × List String)) :
    ∀ m m0 : List (String × CrPackage), keysOf m = keysOf m0 →
      applyFilelists m (fl.filter (fun e => (m0.lookup e.1).isSome)) = applyFilelists m fl := by
  induction fl with
  | nil => intro m m0 _; rfl
  | cons e rest ih =>
      intro m m0 hk
      obtain ⟨pid, fs⟩ := e
      by_cases h : (m0.lookup pid).isSome = true
      · have hm : (m.lookup pid).isSome = true := by
          rw [lookup_isSome_iff, hk]
          exact (lookup_isSome_iff m0 pid).mp h
        obtain ⟨v, hv⟩ := Option.isSome_iff_exists.mp hm
        rw [List.filter_cons_of_pos (by simpa using h)]
        simp only [applyFilelists, hv]
        apply ih
        rw [keys_map_update]
        exact hk
      · have hm : m.lookup pid = none := by
          cases hn : m.lookup pid with
          | none => rfl
          | some v =>
              exact absurd ((lookup_isSome_iff m0 pid).mpr
                (by rw [← hk]; exact (lookup_isSome_iff m pid).mp (by simp [hn]))) h
        rw [List.filter_cons_of_neg (by simpa using h)]
        simp only [applyFilelists, hm]
        exact ih m m0 hk

theorem applyOther_filter (cl : List (String × List String)) :
    ∀ m m0 : List (String × CrPackage), keysOf m = keysOf m0 →
      applyOther m (cl.filter (fun e => (m0.lookup e.1).isSome)) = applyOther m cl := by
  induction cl with
  | nil => intro m m0 _; rfl
  | cons e rest ih =>
      intro m m0 hk
      obtain ⟨pid, cs⟩ := e
      by_cases h : (m0.lookup pid).isSome = true
      · have hm : (m.lookup pid).isSome = true := by
          rw [lookup_isSome_iff, hk]
          exact (lookup_isSome_iff m0 pid).mp h
        obtain ⟨v, hv⟩ := Option.isSome_iff_exists.mp hm
        rw [List.filter_cons_of_pos (by simpa using h)]
        simp only [applyOther, hv]
        apply ih
        rw [keys_map_update]
        exact hk
      · have hm : m.lookup pid = none := by
          cases hn : m.lookup pid with
          | none => rfl
          | some v =>
              exact absurd ((lookup_isSome_iff m0 pid).mpr
                (by rw [← hk]; exact (lookup_isSome_iff m pid).mp (by simp [hn]))) h
        rw [List.filter_cons_of_neg (by simpa using h)]
        simp only [applyOther, hm]
        exact ih m m0 hk

/-- C4: the key set of the extracted package mapping is exactly the pkgId
universe of the primary file, and filelists/other records with unknown pkgIds
contribute nothing to the result. -/
theorem parse_repodata_keys_from_primary (env : Env)
    (primary_xml_path filelists_xml_path other_xml_path : String) :
    ((parse_repodata env primary_xml_path filelists_xml_path other_xml_path).map Prod.fst).Nodup
    ∧ (∀ k, k ∈ (parse_repodata env primary_xml_path filelists_xml_path
          other_xml_path).map Prod.fst
        ↔ k ∈ (env.primary primary_xml_path).map CrPackage.pkgId)
    ∧ parse_repodata env primary_xml_path filelists_xml_path other_xml_path =
        applyOther
          (applyFilelists (primaryFold (env.primary primary_xml_path))
            ((env.filelists filelists_xml_path).filter
              (fun e => ((primaryFold (env.primary primary_xml_path)).lookup e.1).isSome)))
          ((env.other other_xml_path).filter
            (fun e => ((primaryFold (env.primary primary_xml_path)).lookup e.1).isSome)) := by
  have hkeys : keysOf (parse_repodata env primary_xml_path filelists_xml_path other_xml_path)
      = keysOf (primaryFold (env.primary primary_xml_path)) := by
    unfold parse_repodata
    rw [keys_applyOther, keys_applyFilelists]
  refine ⟨?_, ?_, ?_⟩
  · show (keysOf (parse_repodata env primary_xml_path filelists_xml_path other_xml_path)).Nodup
    rw [hkeys]
    exact nodup_keys_primaryFold _
  · intro k
    show k ∈ keysOf (parse_repodata env primary_xml_path filelists_xml_path other_xml_path) ↔ _
    rw [hkeys]
    exact mem_keys_primaryFold _ k
  · unfold parse_repodata
    rw [applyFilelists_filter _ _ _ rfl,
        applyOther_filter _ _ _ (keys_applyFilelists _ _)]

/-! ## Projections over the emitted stream and the parse trace -/

/-- Whether a node wraps a Package. -/
def isPackageDc (dc : DeclarativeContent) : Bool :=
  match dc.content with
  | ContentUnit.package _ => true
  | _ => false

/-- Whether a node wraps a DistributionTree. -/
def isTreeDc (dc : DeclarativeContent) : Bool :=
  match dc.content with
  | ContentUnit.distributionTree _ => true
  | _ => false

/-- The errata id of an UpdateRecord node. -/
def updateIdOf (dc : DeclarativeContent) : Option String :=
  match dc.content with
  | ContentUnit.updateRecord u => some u.id
  | _ => none

/-- The stored digest of an UpdateRecord node. -/
def updateDigestOf (dc : DeclarativeContent) : Option String :=
  match dc.content with
  | ContentUnit.updateRecord u => some u.digest
  | _ => none

/-- The argument triple of a package-repodata parse invocation. -/
def repodataArgs : ParseCall → Option (String × String × String)
  | ParseCall.repodata p f o => some (p, f, o)
  | _ => none

/-! ## Lemmas about processGroup and processGroups -/

theorem packageGroupUrls_ok (urls : List (String × String)) (l : List String)
    (h : packageGroupUrls urls PACKAGE_REPODATA = .ok l) :
    ∃ pU fU oU, l = [pU, fU, oU] ∧ urls.lookup "primary" = some pU ∧
      urls.lookup "filelists" = some fU ∧ urls.lookup "other" = some oU := by
  simp only [PACKAGE_REPODATA, packageGroupUrls] at h
  cases hp : urls.lookup "primary" with
  | none => rw [hp] at h; cases h
  | some pU =>
      rw [hp] at h
      cases hf : urls.lookup "filelists" with
      | none => rw [hf] at h; cases h
      | some fU =>
          rw [hf] at h
          cases ho : urls.lookup "other" with
          | none => rw [ho] at h; cases h
          | some oU =>
              rw [ho] at h
              simp only [Except.map] at h
              cases h
              exact ⟨pU, fU, oU, rfl, rfl, rfl, rfl⟩

theorem processGroup_singleton (env : Env) (remote : RpmRemote) (remote_url : String)
    (deferred : Bool) (primaryUrl : String) (uu : Option String) (u : String)
    (h : ¬ u = primaryUrl) :
    processGroup env remote remote_url deferred primaryUrl uu [u] =
      (if some u == uu then
        .ok (emitUpdates (env.updates (env.path u)), [ParseCall.updateinfo (env.path u)])
      else .ok ([], [])) := by
  have hb : (u == primaryUrl) = false := by simp [h]
  simp only [processGroup, List.map_cons, List.map_nil, hb, Bool.false_eq_true, if_false]

theorem processGroup_package (env : Env) (remote : RpmRemote) (remote_url : String)
    (deferred : Bool) (uu : Option String) (pU fU oU : String) :
    processGroup env remote remote_url deferred pU uu [pU, fU, oU] =
      .ok (emitPackages remote remote_url deferred
            (parse_repodata env (env.path pU) (env.path fU) (env.path oU)),
           [ParseCall.repodata (env.path pU) (env.path fU) (env.path oU)]) := by
  simp [processGroup]

/-- Concatenation of the per-index outputs along a completion order. -/
def flatList {α : Type} (f : Nat → List α) : List Nat → List α
  | [] => []
  | i :: rest => f i ++ flatList f rest

/-- The declarative content a completed group contributes. -/
def groupStream (env : Env) (remote : RpmRemote) (remote_url : String) (deferred : Bool)
    (primaryUrl : String) (uu : Option String) (groups : List (List String)) (i : Nat) :
    List DeclarativeContent :=
  match groups[i]? with
  | none => []
  | some g =>
      match processGroup env remote remote_url deferred primaryUrl uu g with
      | .ok x => x.1
      | .error _ => []

/-- The parse invocations a completed group contributes. -/
def groupCalls (env : Env) (remote : RpmRemote) (remote_url : String) (deferred : Bool)
    (primaryUrl : String) (uu : Option String) (groups : List (List String)) (i : Nat) :
    List ParseCall :=
  match groups[i]? with
  | none => []
  | some g =>
      match processGroup env remote remote_url deferred primaryUrl uu g with
      | .ok x => x.2
      | .error _ => []

theorem processGroups_ok (env : Env) (remote : RpmRemote) (remote_url : String)
    (deferred : Bool) (primaryUrl : String) (uu : Option String) (groups : List (List String)) :
    ∀ order : List Nat,
      (∀ i ∈ order, ∀ g, groups[i]? = some g →
        ∃ dcs calls, processGroup env remote remote_url deferred primaryUrl uu g =
          .ok (dcs, calls)) →
      processGroups env remote remote_url deferred primaryUrl uu groups order =
        ⟨flatList (groupStream env remote remote_url deferred primaryUrl uu groups) order,
         flatList (groupCalls env remote remote_url deferred primaryUrl uu groups) order,
         none⟩ := by
  intro order
  induction order with
  | nil => intro _; rfl
  | cons i rest ih =>
      intro hok
      have hrest := ih (fun j hj g hg => hok j (List.mem_cons_of_mem _ hj) g hg)
      cases hg : groups[i]? with
      | none =>
          simp only [processGroups, hg, hrest, flatList, groupStream, groupCalls]
          simp [hg]
      | some g =>
          obtain ⟨dcs, calls, hx⟩ := hok i (List.mem_cons_self _ _) g hg
          simp only [processGroups, hg, hx, hrest, flatList, groupStream, groupCalls]

theorem flatList_single {α : Type} (f : Nat → List α) (j : Nat)
    (hf : ∀ i, ¬ i = j → f i = []) :
    ∀ l : List Nat, flatList f l = (List.replicate (l.count j) (f j)).flatten := by
  intro l
  induction l with
  | nil => simp [flatList]
  | cons i rest ih =>
      by_cases hij : i = j
      · subst hij
        rw [flatList, ih, List.count_cons_self, List.replicate_succ, List.flatten_cons]
      · have hne : j ≠ i := fun he => hij he.symm
        rw [flatList, ih, hf i hij, List.count_cons_of_ne hne]
        simp

theorem flatList_filterMap {α β : Type} (f : Nat → List α) (g : α → Option β) :
    ∀ l : List Nat, (flatList f l).filterMap g = flatList (fun i => (f i).filterMap g) l := by
  intro l
  induction l with
  | nil => rfl
  | cons i rest ih => simp [flatList, List.filterMap_append, ih]

theorem count_range_eq_one {j n : Nat} (h : j < n) : (List.range n).count j = 1 :=
  List.count_eq_one_of_mem (List.nodup_range n) (List.mem_range.mpr h)

theorem emitPackages_no_tree (remote : RpmRemote) (remote_url : String) (deferred : Bool)
    (packages : List (String × CrPackage)) :
    ∀ dc ∈ emitPackages remote remote_url deferred packages, isTreeDc dc = false := by
  intro dc hdc
  simp only [emitPackages, List.mem_map] at hdc
  obtain ⟨e, _, rfl⟩ := hdc
  rfl

theorem emitUpdates_no_tree (updates : List CrUpdateRecord) :
    ∀ dc ∈ emitUpdates updates, isTreeDc dc = false := by
  intro dc hdc
  simp only [emitUpdates, List.mem_map] at hdc
  obtain ⟨u, _, rfl⟩ := hdc
  rfl

theorem processGroup_ok_no_tree (env : Env) (remote : RpmRemote) (remote_url : String)
    (deferred : Bool) (primaryUrl : String) (uu : Option String) (g : List String)
    (dcs : List DeclarativeContent) (calls : List ParseCall)
    (h : processGroup env remote remote_url deferred primaryUrl uu g = .ok (dcs, calls)) :
    ∀ dc ∈ dcs, isTreeDc dc = false := by
  unfold processGroup at h
  cases g with
  | nil =>
      simp only [List.map_nil] at h
      cases h
      intro dc hdc
      cases hdc
  | cons u0 rest =>
      simp only [List.map_cons] at h
      split at h
      · split at h
        · cases h
          exact emitPackages_no_tree _ _ _ _
        · cases h
      · split at h
        · cases h
          exact emitUpdates_no_tree _
        · cases h
          intro dc hdc
          cases hdc

theorem processGroups_no_tree (env : Env) (remote : RpmRemote) (remote_url : String)
    (deferred : Bool) (primaryUrl : String) (uu : Option String) (groups : List (List String)) :
    ∀ order : List Nat,
      ∀ dc ∈ (processGroups env remote remote_url deferred primaryUrl uu groups order).stream,
        isTreeDc dc = false := by
  intro order
  induction order with
  | nil => intro dc hdc; cases hdc
  | cons i rest ih =>
      intro dc hdc
      cases hg : groups[i]? with
      | none =>
          rw [processGroups, hg] at hdc
          exact ih dc hdc
      | some g =>
          simp only [processGroups, hg] at hdc
          cases hx : processGroup env remote remote_url deferred primaryUrl uu g with
          | error e =>
              rw [hx] at hdc
              simp at hdc
          | ok x =>
              obtain ⟨dcs, calls⟩ := x
              rw [hx] at hdc
              simp only [List.mem_append] at hdc
              rcases hdc with hdc | hdc
              · exact processGroup_ok_no_tree env remote remote_url deferred primaryUrl uu g
                  dcs calls hx dc hdc
              · exact ih dc hdc

/-! ## Indexing the group list: one singleton group per update URL, then the
package group -/

theorem groups_getElem_lt (urls : List String) (pkgs : List String) (i : Nat)
    (hi : i < urls.length) :
    ((urls.map (fun u => [u])) ++ [pkgs])[i]? = some [urls[i]] := by
  rw [List.getElem?_append, if_pos (by simpa using hi), List.getElem?_map,
      List.getElem?_eq_getElem hi]
  rfl

theorem groups_getElem_self (urls : List String) (pkgs : List String) :
    ((urls.map (fun u => [u])) ++ [pkgs])[urls.length]? = some pkgs := by
  rw [List.getElem?_append_right (by simp)]
  simp

theorem groups_getElem_gt (urls : List String) (pkgs : List String) (i : Nat)
    (hi : urls.length + 1 ≤ i) :
    ((urls.map (fun u => [u])) ++ [pkgs])[i]? = none := by
  apply List.getElem?_eq_none
  simp
  omega

theorem groupCalls_lt (env : Env) (remote : RpmRemote) (remote_url : String) (deferred : Bool)
    (pU : String) (uu : Option String) (urls : List String) (pkgs : List String) (i : Nat)
    (hi : i < urls.length) (hne : ¬ urls[i] = pU) :
    groupCalls env remote remote_url deferred pU uu ((urls.map (fun u => [u])) ++ [pkgs]) i =
      (if some urls[i] == uu then [ParseCall.updateinfo (env.path urls[i])] else []) := by
  simp only [groupCalls, groups_getElem_lt urls pkgs i hi,
    processGroup_singleton env remote remote_url deferred pU uu _ hne]
  by_cases hu : (some urls[i] == uu) = true
  · simp [hu]
  · simp [hu]

theorem groupStream_lt (env : Env) (remote : RpmRemote) (remote_url : String) (deferred : Bool)
    (pU : String) (uu : Option String) (urls : List String) (pkgs : List String) (i : Nat)
    (hi : i < urls.length) (hne : ¬ urls[i] = pU) :
    groupStream env remote remote_url deferred pU uu ((urls.map (fun u => [u])) ++ [pkgs]) i =
      (if some urls[i] == uu then emitUpdates (env.updates (env.path urls[i])) else []) := by
  simp only [groupStream, groups_getElem_lt urls pkgs i hi,
    processGroup_singleton env remote remote_url deferred pU uu _ hne]
  by_cases hu : (some urls[i] == uu) = true
  · simp [hu]
  · simp [hu]

theorem groupCalls_self (env : Env) (remote : RpmRemote) (remote_url : String) (deferred : Bool)
    (uu : Option String) (urls : List String) (pU fU oU : String) :
    groupCalls env remote remote_url deferred pU uu
        ((urls.map (fun u => [u])) ++ [[pU, fU, oU]]) urls.length =
      [ParseCall.repodata (env.path pU) (env.path fU) (env.path oU)] := by
  simp only [groupCalls, groups_getElem_self urls [pU, fU, oU],
    processGroup_package env remote remote_url deferred uu pU fU oU]

theorem groupStream_self (env : Env) (remote : RpmRemote) (remote_url : String)
    (deferred : Bool) (uu : Option String) (urls : List String) (pU fU oU : String) :
    groupStream env remote remote_url deferred pU uu
        ((urls.map (fun u => [u])) ++ [[pU, fU, oU]]) urls.length =
      emitPackages remote remote_url deferred
        (parse_repodata env (env.path pU) (env.path fU) (env.path oU)) := by
  simp only [groupStream, groups_getElem_self urls [pU, fU, oU],
    processGroup_package env remote remote_url deferred uu pU fU oU]

theorem groupCalls_gt (env : Env) (remote : RpmRemote) (remote_url : String) (deferred : Bool)
    (pU : String) (uu : Option String) (urls : List String) (pkgs : List String) (i : Nat)
    (hi : urls.length + 1 ≤ i) :
    groupCalls env remote remote_url deferred pU uu ((urls.map (fun u => [u])) ++ [pkgs]) i
      = [] := by
  simp only [groupCalls, groups_getElem_gt urls pkgs i hi]

theorem groupStream_gt (env : Env) (remote : RpmRemote) (remote_url : String) (deferred : Bool)
    (pU : String) (uu : Option String) (urls : List String) (pkgs : List String) (i : Nat)
    (hi : urls.length + 1 ≤ i) :
    groupStream env remote remote_url deferred pU uu ((urls.map (fun u => [u])) ++ [pkgs]) i
      = [] := by
  simp only [groupStream, groups_getElem_gt urls pkgs i hi]

/-- When classification produced all three package-metadata URLs and no update
URL collides with the primary URL, the run never raises: its stream is the
kickstart node followed by the per-group contributions in completion order. -/
theorem runModel_eq_of_ok (remote : RpmRemote) (deferred : Bool) (url_path : String)
    (kickstart : Option KickstartData) (env : Env) (records : List RepomdRecord)
    (order : List Nat) (pU fU oU : String)
    (hcls : packageGroupUrls (classifyRecords (runRemoteUrl remote url_path) records).1
        PACKAGE_REPODATA = Except.ok [pU, fU, oU])
    (hnc : pU ∉ (classifyRecords (runRemoteUrl remote url_path) records).2) :
    runModel remote deferred url_path kickstart env records order =
      ⟨kickDcsOf kickstart ++
         flatList (groupStream env remote (runRemoteUrl remote url_path) deferred pU
           ((classifyRecords (runRemoteUrl remote url_path) records).2.getLast?)
           ((((classifyRecords (runRemoteUrl remote url_path) records).2.map (fun u => [u]))
             ++ [[pU, fU, oU]]))) order,
       flatList (groupCalls env remote (runRemoteUrl remote url_path) deferred pU
           ((classifyRecords (runRemoteUrl remote url_path) records).2.getLast?)
           ((((classifyRecords (runRemoteUrl remote url_path) records).2.map (fun u => [u]))
             ++ [[pU, fU, oU]]))) order,
       none⟩ := by
  obtain ⟨pU', fU', oU', hl, hp, hf, ho⟩ := packageGroupUrls_ok _ _ hcls
  have hpU : pU' = pU := by injection hl with h1 _; exact h1.symm
  have hok : ∀ i ∈ order, ∀ g,
      ((((classifyRecords (runRemoteUrl remote url_path) records).2.map (fun u => [u]))
        ++ [[pU, fU, oU]]))[i]? = some g →
      ∃ dcs calls,
        processGroup env remote (runRemoteUrl remote url_path) deferred pU
          ((classifyRecords (runRemoteUrl remote url_path) records).2.getLast?) g =
        .ok (dcs, calls) := by
    intro i _ g hg
    by_cases hi : i < (classifyRecords (runRemoteUrl remote url_path) records).2.length
    · rw [groups_getElem_lt _ _ _ hi] at hg
      have hgg := Option.some.inj hg
      subst hgg
      have hne : ¬ (classifyRecords (runRemoteUrl remote url_path) records).2[i] = pU :=
        fun he => hnc (he ▸ List.getElem_mem hi)
      rw [processGroup_singleton env remote (runRemoteUrl remote url_path) deferred pU
        ((classifyRecords (runRemoteUrl remote url_path) records).2.getLast?) _ hne]
      by_cases hu : (some (classifyRecords (runRemoteUrl remote url_path) records).2[i] ==
          (classifyRecords (runRemoteUrl remote url_path) records).2.getLast?) = true
      · rw [if_pos hu]
        exact ⟨_, _, rfl⟩
      · rw [if_neg hu]
        exact ⟨_, _, rfl⟩
    · by_cases hi' : i = (classifyRecords (runRemoteUrl remote url_path) records).2.length
      · subst hi'
        rw [groups_getElem_self] at hg
        have hgg := Option.some.inj hg
        subst hgg
        rw [processGroup_package]
        exact ⟨_, _, rfl⟩
      · rw [groups_getElem_gt _ _ _ (by omega)] at hg
        cases hg
  rw [hpU] at hp
  simp only [runModel, hcls, hp, Option.getD_some]
  rw [processGroups_ok env remote (runRemoteUrl remote url_path) deferred pU
    ((classifyRecords (runRemoteUrl remote url_path) records).2.getLast?) _ order hok]

theorem flatList_filter {α : Type} (f : Nat → List α) (p : α → Bool) :
    ∀ l : List Nat, (flatList f l).filter p = flatList (fun i => (f i).filter p) l := by
  intro l
  induction l with
  | nil => rfl
  | cons i rest ih => simp [flatList, List.filter_append, ih]

theorem filter_isPackage_emitUpdates (updates : List CrUpdateRecord) :
    (emitUpdates updates).filter isPackageDc = [] := by
  induction updates with
  | nil => rfl
  | cons u t ih =>
      simp only [emitUpdates, List.map_cons] at ih ⊢
      rw [List.filter_cons_of_neg (by simp [isPackageDc, emitUpdate])]
      exact ih

theorem filter_isPackage_emitPackages (remote : RpmRemote) (remote_url : String)
    (deferred : Bool) (packages : List (String × CrPackage)) :
    (emitPackages remote remote_url deferred packages).filter isPackageDc =
      emitPackages remote remote_url deferred packages := by
  induction packages with
  | nil => rfl
  | cons e t ih =>
      simp only [emitPackages, List.map_cons] at ih ⊢
      rw [List.filter_cons_of_pos (by simp [isPackageDc, emitPackage])]
      rw [ih]

theorem packageGroupUrls_error (urls : List (String × String)) :
    ∀ ts : List String, (∃ t ∈ ts, urls.lookup t = none) →
      ∃ t, packageGroupUrls urls ts = .error t := by
  intro ts
  induction ts with
  | nil =>
      rintro ⟨t, ht, _⟩
      cases ht
  | cons a rest ih =>
      rintro ⟨t, ht, hn⟩
      rcases List.mem_cons.mp ht with rfl | hmem
      · exact ⟨t, by simp [packageGroupUrls, hn]⟩
      · cases ha : urls.lookup a with
        | none => exact ⟨a, by simp [packageGroupUrls, ha]⟩
        | some u =>
            obtain ⟨t', ht'⟩ := ih ⟨t, hmem, hn⟩
            exact ⟨t', by simp [packageGroupUrls, ha, ht', Except.map]⟩

/-! ## The claims about RpmFirstStage.run -/

/-- C2: the three package-metadata downloads form one fetch group consumed as
a unit. For every completion order of the fetch groups, the package-metadata
parser is invoked exactly once, only when the whole group has completed, and
its arguments are the downloaded primary, filelists and other paths in that
fixed order, regardless of which group finished when; the run raises nothing. -/
theorem package_metadata_single_group_fixed_order (remote : RpmRemote) (deferred : Bool)
    (url_path : String) (kickstart : Option KickstartData) (env : Env)
    (records : List RepomdRecord) (order : List Nat) (pU fU oU : String)
    (hcls : packageGroupUrls (classifyRecords (runRemoteUrl remote url_path) records).1
        PACKAGE_REPODATA = Except.ok [pU, fU, oU])
    (hnc : pU ∉ (classifyRecords (runRemoteUrl remote url_path) records).2)
    (hperm : order.Perm
      (List.range ((classifyRecords (runRemoteUrl remote url_path) records).2.length + 1))) :
    (runModel remote deferred url_path kickstart env records order).calls.filterMap repodataArgs
      = [(env.path pU, env.path fU, env.path oU)]
    ∧ (runModel remote deferred url_path kickstart env records order).err = none := by
  rw [runModel_eq_of_ok remote deferred url_path kickstart env records order pU fU oU hcls hnc]
  refine ⟨?_, rfl⟩
  show (flatList (groupCalls env remote (runRemoteUrl remote url_path) deferred pU
      ((classifyRecords (runRemoteUrl remote url_path) records).2.getLast?)
      ((((classifyRecords (runRemoteUrl remote url_path) records).2.map (fun u => [u]))
        ++ [[pU, fU, oU]]))) order).filterMap repodataArgs = _
  rw [flatList_filterMap]
  have hf : ∀ i, ¬ i = (classifyRecords (runRemoteUrl remote url_path) records).2.length →
      ((groupCalls env remote (runRemoteUrl remote url_path) deferred pU
        ((classifyRecords (runRemoteUrl remote url_path) records).2.getLast?)
        ((((classifyRecords (runRemoteUrl remote url_path) records).2.map (fun u => [u]))
          ++ [[pU, fU, oU]])) i).filterMap repodataArgs) = [] := by
    intro i hi
    by_cases hlt : i < (classifyRecords (runRemoteUrl remote url_path) records).2.length
    · have hne : ¬ (classifyRecords (runRemoteUrl remote url_path) records).2[i] = pU :=
        fun he => hnc (he ▸ List.getElem_mem hlt)
      rw [groupCalls_lt env remote (runRemoteUrl remote url_path) deferred pU
        ((classifyRecords (runRemoteUrl remote url_path) records).2.getLast?)
        ((classifyRecords (runRemoteUrl remote url_path) records).2) [pU, fU, oU] i hlt hne]
      by_cases hu : (some (classifyRecords (runRemoteUrl remote url_path) records).2[i] ==
          (classifyRecords (runRemoteUrl remote url_path) records).2.getLast?) = true
      · rw [if_pos hu]
        rfl
      · rw [if_neg hu]
        rfl
    · rw [groupCalls_gt env remote (runRemoteUrl remote url_path) deferred pU
        ((classifyRecords (runRemoteUrl remote url_path) records).2.getLast?)
        ((classifyRecords (runRemoteUrl remote url_path) records).2) [pU, fU, oU] i (by omega)]
      rfl
  rw [flatList_single _ ((classifyRecords (runRemoteUrl remote url_path) records).2.length)
    hf order]
  rw [hperm.count_eq, count_range_eq_one (Nat.lt_succ_self _)]
  rw [groupCalls_self env remote (runRemoteUrl remote url_path) deferred
    ((classifyRecords (runRemoteUrl remote url_path) records).2.getLast?)
    ((classifyRecords (runRemoteUrl remote url_path) records).2) pU fU oU]
  simp [repodataArgs]

/-- C6: for every record of the extracted package mapping, exactly one Package
node is emitted, carrying exactly one artifact whose URL joins the remote root
with the package's own location (not a metadata URL), whose checksum slot is
the checksum-typed pkgId, and whose deferred flag is (policy is not
immediate). -/
theorem package_nodes_one_artifact_own_location (remote : RpmRemote) (url_path : String)
    (kickstart : Option KickstartData) (env : Env) (records : List RepomdRecord)
    (order : List Nat) (pU fU oU : String)
    (hcls : packageGroupUrls (classifyRecords (runRemoteUrl remote url_path) records).1
        PACKAGE_REPODATA = Except.ok [pU, fU, oU])
    (hnc : pU ∉ (classifyRecords (runRemoteUrl remote url_path) records).2)
    (hperm : order.Perm
      (List.range ((classifyRecords (runRemoteUrl remote url_path) records).2.length + 1))) :
    (runModel remote (deferredDownload remote) url_path kickstart env records
        order).stream.filter isPackageDc
      = (parse_repodata env (env.path pU) (env.path fU) (env.path oU)).map
          (fun e =>
            DeclarativeContent.mk (ContentUnit.package (Package.createrepo_to_dict e.2))
              [DeclarativeArtifact.mk
                (Artifact.mk e.2.size_package (some (e.2.checksum_type, e.2.pkgId)))
                (urljoin (runRemoteUrl remote url_path) e.2.location_href)
                (basename e.2.location_href) remote (deferredDownload remote)]
              ExtraData.missing)
    ∧ (deferredDownload remote = true ↔ ¬ remote.policy = Policy.immediate) := by
  constructor
  · rw [runModel_eq_of_ok remote (deferredDownload remote) url_path kickstart env records
      order pU fU oU hcls hnc]
    show (kickDcsOf kickstart ++ flatList (groupStream env remote
        (runRemoteUrl remote url_path) (deferredDownload remote) pU
        ((classifyRecords (runRemoteUrl remote url_path) records).2.getLast?)
        ((((classifyRecords (runRemoteUrl remote url_path) records).2.map (fun u => [u]))
          ++ [[pU, fU, oU]]))) order).filter isPackageDc = _
    rw [List.filter_append]
    have hkick : (kickDcsOf kickstart).filter isPackageDc = [] := by
      cases kickstart <;> rfl
    rw [hkick, List.nil_append, flatList_filter]
    have hf : ∀ i, ¬ i = (classifyRecords (runRemoteUrl remote url_path) records).2.length →
        ((groupStream env remote (runRemoteUrl remote url_path) (deferredDownload remote) pU
          ((classifyRecords (runRemoteUrl remote url_path) records).2.getLast?)
          ((((classifyRecords (runRemoteUrl remote url_path) records).2.map (fun u => [u]))
            ++ [[pU, fU, oU]])) i).filter isPackageDc) = [] := by
      intro i hi
      by_cases hlt : i < (classifyRecords (runRemoteUrl remote url_path) records).2.length
      · have hne : ¬ (classifyRecords (runRemoteUrl remote url_path) records).2[i] = pU :=
          fun he => hnc (he ▸ List.getElem_mem hlt)
        rw [groupStream_lt env remote (runRemoteUrl remote url_path) (deferredDownload remote)
          pU ((classifyRecords (runRemoteUrl remote url_path) records).2.getLast?)
          ((classifyRecords (runRemoteUrl remote url_path) records).2) [pU, fU, oU] i hlt hne]
        by_cases hu : (some (classifyRecords (runRemoteUrl remote url_path) records).2[i] ==
            (classifyRecords (runRemoteUrl remote url_path) records).2.getLast?) = true
        · rw [if_pos hu]
          exact filter_isPackage_emitUpdates _
        · rw [if_neg hu]
          rfl
      · rw [groupStream_gt env remote (runRemoteUrl remote url_path) (deferredDownload remote)
          pU ((classifyRecords (runRemoteUrl remote url_path) records).2.getLast?)
          ((classifyRecords (runRemoteUrl remote url_path) records).2) [pU, fU, oU] i
          (by omega)]
        rfl
    rw [flatList_single _ ((classifyRecords (runRemoteUrl remote url_path) records).2.length)
      hf order]
    rw [hperm.count_eq, count_range_eq_one (Nat.lt_succ_self _)]
    rw [groupStream_self env remote (runRemoteUrl remote url_path) (deferredDownload remote)
      ((classifyRecords (runRemoteUrl remote url_path) records).2.getLast?)
      ((classifyRecords (runRemoteUrl remote url_path) records).2) pU fU oU]
    rw [filter_isPackage_emitPackages]
    simp [emitPackages, emitPackage, Package.createrepo_to_dict]
  · simp [deferredDownload]

/-- C7: when kickstart data is supplied, exactly one DistributionTree node is
emitted, carrying the raw kickstart extra data, at the head of the stream and
hence before every Package or UpdateRecord node of the run. -/
theorem distribution_tree_first (remote : RpmRemote) (deferred : Bool) (url_path : String)
    (k : KickstartData) (env : Env) (records : List RepomdRecord) (order : List Nat) :
    (runModel remote deferred url_path (some k) env records order).stream.head? =
      some (DeclarativeContent.mk (ContentUnit.distributionTree k.distribution_tree) []
        (ExtraData.kick k))
    ∧ (((runModel remote deferred url_path (some k) env records order).stream.drop 1).all
        (fun dc => !(isTreeDc dc))) = true := by
  cases hcls : packageGroupUrls
      (classifyRecords (runRemoteUrl remote url_path) records).1 PACKAGE_REPODATA with
  | error t =>
      simp only [runModel, hcls]
      exact ⟨rfl, rfl⟩
  | ok pkgUrls =>
      simp only [runModel, hcls]
      refine ⟨rfl, ?_⟩
      rw [List.all_eq_true]
      intro dc hdc
      have hmem : dc ∈ (processGroups env remote (runRemoteUrl remote url_path) deferred
          (((classifyRecords (runRemoteUrl remote url_path) records).1.lookup "primary").getD "")
          ((classifyRecords (runRemoteUrl remote url_path) records).2.getLast?)
          (((classifyRecords (runRemoteUrl remote url_path) records).2.map (fun u => [u]))
            ++ [pkgUrls]) order).stream := by
        simpa [kickDcsOf] using hdc
      have := processGroups_no_tree env remote (runRemoteUrl remote url_path) deferred
        (((classifyRecords (runRemoteUrl remote url_path) records).1.lookup "primary").getD "")
        ((classifyRecords (runRemoteUrl remote url_path) records).2.getLast?)
        (((classifyRecords (runRemoteUrl remote url_path) records).2.map (fun u => [u]))
          ++ [pkgUrls]) order dc hmem
      simp [this]

/-- C3: for every root index whose classified entries lack one of the three
package-metadata types, the coordinator run raises (the KeyError of the
missing type) and no Package node is emitted into the stream. -/
theorem missing_package_type_fails (remote : RpmRemote) (deferred : Bool) (url_path : String)
    (kickstart : Option KickstartData) (env : Env) (records : List RepomdRecord)
    (order : List Nat)
    (hmiss : ∃ t ∈ PACKAGE_REPODATA,
      (classifyRecords (runRemoteUrl remote url_path) records).1.lookup t = none) :
    ((runModel remote deferred url_path kickstart env records order).err.isSome = true)
    ∧ (((runModel remote deferred url_path kickstart env records order).stream.all
        (fun dc => !(isPackageDc dc))) = true) := by
  obtain ⟨t, ht⟩ := packageGroupUrls_error
    (classifyRecords (runRemoteUrl remote url_path) records).1 PACKAGE_REPODATA hmiss
  simp only [runModel, ht]
  refine ⟨rfl, ?_⟩
  cases kickstart <;> rfl

/-! ## Concrete fixtures for evaluating the run model -/

/-- A concrete remote. -/
def wRemote : RpmRemote := ⟨"zoo", "http://example.com/repo/", Policy.on_demand⟩

/-- A root index with the three package-metadata entries. -/
def wRecords : List RepomdRecord :=
  [⟨"primary", "repodata/primary.xml"⟩, ⟨"filelists", "repodata/filelists.xml"⟩,
   ⟨"other", "repodata/other.xml"⟩]

/-- A root index missing the other.xml entry. -/
def wRecordsMissing : List RepomdRecord :=
  [⟨"primary", "repodata/primary.xml"⟩, ⟨"filelists", "repodata/filelists.xml"⟩]

/-- One concrete primary-file package record. -/
def wPkg : CrPackage :=
  ⟨"abc123", "bear", "0", "4.1", "1", "x86_64", "Packages/b/bear-4.1.rpm", 1234,
   ChecksumType.sha256, [], []⟩

/-- A concrete environment: downloads land at a path equal to the URL; the
primary file holds one package; the other readers yield nothing. -/
def wEnv : Env :=
  ⟨fun u => u,
   fun p => if p = "http://example.com/repo/repodata/primary.xml" then [wPkg] else [],
   fun _ => [],
   fun _ => [],
   fun _ => []⟩

theorem package_metadata_single_group_fixed_order_witness :
    (runModel wRemote true "" none wEnv wRecords [0]).calls.filterMap repodataArgs
        = [("http://example.com/repo/repodata/primary.xml",
            "http://example.com/repo/repodata/filelists.xml",
            "http://example.com/repo/repodata/other.xml")]
      ∧ (runModel wRemote true "" none wEnv wRecords [0]).err = none :=
  package_metadata_single_group_fixed_order wRemote true "" none wEnv wRecords [0]
    "http://example.com/repo/repodata/primary.xml"
    "http://example.com/repo/repodata/filelists.xml"
    "http://example.com/repo/repodata/other.xml"
    (by decide) (by decide) (List.isPerm_iff.mp (by decide))

theorem package_nodes_one_artifact_own_location_witness :
    (runModel wRemote (deferredDownload wRemote) "" none wEnv wRecords [0]).stream.filter
        isPackageDc
      = [DeclarativeContent.mk (ContentUnit.package (Package.createrepo_to_dict wPkg))
          [DeclarativeArtifact.mk
            (Artifact.mk 1234 (some (ChecksumType.sha256, "abc123")))
            "http://example.com/repo/Packages/b/bear-4.1.rpm" "bear-4.1.rpm" wRemote true]
          ExtraData.missing] := by
  have h := (package_nodes_one_artifact_own_location wRemote "" none wEnv wRecords [0]
    "http://example.com/repo/repodata/primary.xml"
    "http://example.com/repo/repodata/filelists.xml"
    "http://example.com/repo/repodata/other.xml"
    (by decide) (by decide) (List.isPerm_iff.mp (by decide))).1
  exact h.trans (by decide)

theorem missing_package_type_fails_witness :
    ((runModel wRemote true "" none wEnv wRecordsMissing [0]).err.isSome = true)
    ∧ (((runModel wRemote true "" none wEnv wRecordsMissing [0]).stream.all
        (fun dc => !(isPackageDc dc))) = true) :=
  missing_package_type_fails wRemote true "" none wEnv wRecordsMissing [0]
    ⟨"other", by decide, by decide⟩

/-! ## C1: the stale updateinfo_url variable drops all but the last update file -/

/-- A remote for the two-updateinfo scenario. -/
def c1Remote : RpmRemote := ⟨"zoo", "http://example.com/repo/", Policy.immediate⟩

/-- A root index listing the three package parts and TWO update-metadata
entries. -/
def c1Records : List RepomdRecord :=
  [⟨"primary", "repodata/primary.xml"⟩, ⟨"filelists", "repodata/filelists.xml"⟩,
   ⟨"other", "repodata/other.xml"⟩, ⟨"updateinfo", "repodata/updateinfo1.xml"⟩,
   ⟨"updateinfo", "repodata/updateinfo2.xml"⟩]

/-- The single record of the first update file. -/
def c1Update1 : CrUpdateRecord := ⟨"ERRATA-1", "first", "2020-01-01", [], []⟩

/-- The single record of the second update file. -/
def c1Update2 : CrUpdateRecord := ⟨"ERRATA-2", "second", "2020-01-02", [], []⟩

/-- The environment for the two-updateinfo scenario: each update file parses
to its one record. -/
def c1Env : Env :=
  ⟨fun u => u,
   fun _ => [],
   fun _ => [],
   fun _ => [],
   fun p => if p = "http://example.com/repo/repodata/updateinfo1.xml" then [c1Update1]
            else if p = "http://example.com/repo/repodata/updateinfo2.xml" then [c1Update2]
            else []⟩

/-- C1 (evaluation at the failing input): the index lists two update-metadata
entries; every fetch group completes (the updateinfo1 group first), yet the
emitted UpdateRecord ids are only those of the LAST-listed update file — the
completed updateinfo1 group matches neither dispatch branch because the
variable `updateinfo_url` retains the last URL assigned by the classification
loop, so its records are dropped without being parsed, and no error is
raised. -/
theorem two_updateinfo_entries_drop_first :
    ((runModel c1Remote false "" none c1Env c1Records [0, 1, 2]).stream.filterMap updateIdOf
        = ["ERRATA-2"])
    ∧ (runModel c1Remote false "" none c1Env c1Records [0, 1, 2]).err = none := by
  constructor
  · decide
  · decide

/-! ## C9: digest determinism and storage -/

/-- C9: the update-record digest function is deterministic, equals the SHA-256
hex digest of the canonical single-record XML serialization (one record
appended to a fresh UpdateInfo and dumped), and the emission loop stores
exactly this digest on every emitted UpdateRecord. -/
theorem digest_deterministic_and_stored (updates : List CrUpdateRecord) :
    (∀ u : CrUpdateRecord, hash_update_record u = hash_update_record u
        ∧ hash_update_record u = sha256Hex (xmlDumpUpdateInfo ([] ++ [u])))
    ∧ (emitUpdates updates).map updateDigestOf
        = updates.map (fun u => some (hash_update_record u)) := by
  refine ⟨fun u => ⟨rfl, rfl⟩, ?_⟩
  induction updates with
  | nil => rfl
  | cons u t ih =>
      simp only [emitUpdates, List.map_cons] at ih ⊢
      rw [ih]
      rfl

/-! ## C5: relational rows attached at most once per UpdateRecord -/

/-- The errata id of a batch element, when it wraps an UpdateRecord. -/
def updateDcId (dc? : Option DeclarativeContent) : Option String :=
  match dc? with
  | some dc =>
      match dc.content with
      | ContentUnit.updateRecord u => some u.id
      | _ => none
  | none => none

/-- The errata ids of the UpdateRecord elements of a batch. -/
def batchUpdateIds (batch : List (Option DeclarativeContent)) : List String :=
  batch.filterMap updateDcId

theorem mem_batchUpdateIds_cons (x : Option DeclarativeContent)
    (rest : List (Option DeclarativeContent)) (rid : String) :
    rid ∈ batchUpdateIds (x :: rest) ↔
      updateDcId x = some rid ∨ rid ∈ batchUpdateIds rest := by
  simp only [batchUpdateIds, List.filterMap_cons]
  cases hx : updateDcId x with
  | none => simp [hx]
  | some j => simp [hx, eq_comm]

theorem mem_batchUpdateIds_of_mem (batch : List (Option DeclarativeContent))
    (u : UpdateRecord) (arts : List DeclarativeArtifact) (e : ExtraData)
    (hmem : some (DeclarativeContent.mk (ContentUnit.updateRecord u) arts e) ∈ batch) :
    u.id ∈ batchUpdateIds batch := by
  induction batch with
  | nil => cases hmem
  | cons x rest ih =>
      rw [mem_batchUpdateIds_cons]
      rcases List.mem_cons.mp hmem with hx | hmem'
      · left
        rw [← hx]
        rfl
      · right
        exact ih hmem'

theorem dcRows_filter_ne (dc? : Option DeclarativeContent) (rid : String)
    (h : ¬ updateDcId dc? = some rid) :
    (dcRows dc?).update_collections.filter (fun r => r.record_id == rid) = []
    ∧ (dcRows dc?).update_collection_packages.filter (fun r => r.record_id == rid) = []
    ∧ (dcRows dc?).update_references.filter (fun r => r.record_id == rid) = [] := by
  cases dc? with
  | none => exact ⟨rfl, rfl, rfl⟩
  | some dc =>
      cases hc : dc.content with
      | package p => simp [dcRows, hc, emptyOut]
      | distributionTree tree =>
          cases he : dc.extra_data <;> simp [dcRows, hc, he, treeRows, emptyOut]
      | updateRecord u =>
          have hne : ¬ u.id = rid := by
            intro he
            exact h (by simp [updateDcId, hc, he])
          by_cases hr : relationsExist u = true
          · simp [dcRows, hc, hr, emptyOut]
          · simp only [dcRows, hc, hr, Bool.false_eq_true, if_false, updateRows]
            refine ⟨?_, ?_, ?_⟩
            · rw [List.filter_eq_nil_iff]
              intro a ha
              simp only [List.mem_map] at ha
              obtain ⟨cp, _, rfl⟩ := ha
              simp [hne]
            · rw [List.filter_eq_nil_iff]
              intro a ha
              simp only [List.mem_flatMap, List.mem_map] at ha
              obtain ⟨cp, _, p, _, rfl⟩ := ha
              simp [hne]
            · rw [List.filter_eq_nil_iff]
              intro a ha
              simp only [List.mem_map] at ha
              obtain ⟨r, _, rfl⟩ := ha
              simp [hne]

theorem postSave_filter_not_mem (rid : String) :
    ∀ batch : List (Option DeclarativeContent), rid ∉ batchUpdateIds batch →
      (postSave batch).update_collections.filter (fun r => r.record_id == rid) = []
      ∧ (postSave batch).update_collection_packages.filter (fun r => r.record_id == rid) = []
      ∧ (postSave batch).update_references.filter (fun r => r.record_id == rid) = [] := by
  intro batch
  induction batch with
  | nil => intro _; exact ⟨rfl, rfl, rfl⟩
  | cons x rest ih =>
      intro h
      have hx : ¬ updateDcId x = some rid := by
        intro he
        exact h ((mem_batchUpdateIds_cons x rest rid).mpr (Or.inl he))
      have hrest := ih (fun hm => h ((mem_batchUpdateIds_cons x rest rid).mpr (Or.inr hm)))
      obtain ⟨d1, d2, d3⟩ := dcRows_filter_ne x rid hx
      obtain ⟨e1, e2, e3⟩ := hrest
      refine ⟨?_, ?_, ?_⟩
      · show ((postSaveAppend (dcRows x) (postSave rest)).update_collections.filter
          (fun r => r.record_id == rid)) = []
        rw [postSaveAppend]
        simp only [List.filter_append, d1, e1, List.nil_append]
      · show ((postSaveAppend (dcRows x) (postSave rest)).update_collection_packages.filter
          (fun r => r.record_id == rid)) = []
        rw [postSaveAppend]
        simp only [List.filter_append, d2, e2, List.nil_append]
      · show ((postSaveAppend (dcRows x) (postSave rest)).update_references.filter
          (fun r => r.record_id == rid)) = []
        rw [postSaveAppend]
        simp only [List.filter_append, d3, e3, List.nil_append]

theorem batchUpdateIds_nodup_tail (x : Option DeclarativeContent)
    (rest : List (Option DeclarativeContent))
    (h : (batchUpdateIds (x :: rest)).Nodup) : (batchUpdateIds rest).Nodup := by
  simp only [batchUpdateIds, List.filterMap_cons] at h
  cases hx : updateDcId x with
  | none => rwa [hx] at h
  | some j =>
      rw [hx] at h
      exact h.of_cons

/-- C5: within one `_post_save` batch whose UpdateRecord elements carry
pairwise distinct errata ids, an UpdateRecord that already has persisted
collections or references gets no rows attached to it, and one without gets
exactly the collections, collection packages and references carried in its
extra data. -/
theorem update_record_relations_attached_once (batch : List (Option DeclarativeContent))
    (u : UpdateRecord) (arts : List DeclarativeArtifact) (fr : FutureRelations)
    (hmem : some (DeclarativeContent.mk (ContentUnit.updateRecord u) arts
      (ExtraData.relations fr)) ∈ batch)
    (hnodup : (batchUpdateIds batch).Nodup) :
    (relationsExist u = true →
        (postSave batch).update_collections.filter (fun r => r.record_id == u.id) = []
      ∧ (postSave batch).update_collection_packages.filter (fun r => r.record_id == u.id) = []
      ∧ (postSave batch).update_references.filter (fun r => r.record_id == u.id) = [])
    ∧ (relationsExist u = false →
        (postSave batch).update_collections.filter (fun r => r.record_id == u.id)
          = fr.collections.map (fun cp => SavedCollection.mk u.id cp.1)
      ∧ (postSave batch).update_collection_packages.filter (fun r => r.record_id == u.id)
          = fr.collections.flatMap
              (fun cp => cp.2.map (fun p => SavedCollectionPackage.mk u.id cp.1 p))
      ∧ (postSave batch).update_references.filter (fun r => r.record_id == u.id)
          = fr.references.map (fun r => SavedReference.mk u.id r)) := by
  induction batch with
  | nil => cases hmem
  | cons x rest ih =>
      rcases List.mem_cons.mp hmem with hx | hmem'
      · -- the head is the node of record u
        have hid : updateDcId x = some u.id := by rw [← hx]; rfl
        have hrestmem : u.id ∉ batchUpdateIds rest := by
          simp only [batchUpdateIds, List.filterMap_cons, hid] at hnodup
          exact (List.nodup_cons.mp hnodup).1
        obtain ⟨e1, e2, e3⟩ := postSave_filter_not_mem u.id rest hrestmem
        have hrows : dcRows x =
            (if relationsExist u then emptyOut
             else updateRows u.id (extraRelations (ExtraData.relations fr))) := by
          rw [← hx]
          rfl
        constructor
        · intro hrel
          rw [hrel] at hrows
          simp only [if_true] at hrows
          refine ⟨?_, ?_, ?_⟩
          · show ((postSaveAppend (dcRows x) (postSave rest)).update_collections.filter
              (fun r => r.record_id == u.id)) = []
            rw [hrows, postSaveAppend]
            simp only [emptyOut, List.filter_append, List.nil_append, e1]
          · show ((postSaveAppend (dcRows x) (postSave rest)).update_collection_packages.filter
              (fun r => r.record_id == u.id)) = []
            rw [hrows, postSaveAppend]
            simp only [emptyOut, List.filter_append, List.nil_append, e2]
          · show ((postSaveAppend (dcRows x) (postSave rest)).update_references.filter
              (fun r => r.record_id == u.id)) = []
            rw [hrows, postSaveAppend]
            simp only [emptyOut, List.filter_append, List.nil_append, e3]
        · intro hrel
          rw [hrel] at hrows
          simp only [Bool.false_eq_true, if_false] at hrows
          refine ⟨?_, ?_, ?_⟩
          · show ((postSaveAppend (dcRows x) (postSave rest)).update_collections.filter
              (fun r => r.record_id == u.id)) = _
            rw [hrows, postSaveAppend]
            simp only [updateRows, extraRelations, List.filter_append, e1, List.append_nil]
            rw [List.filter_eq_self.mpr]
            intro a ha
            simp only [List.mem_map] at ha
            obtain ⟨cp, _, rfl⟩ := ha
            simp
          · show ((postSaveAppend (dcRows x) (postSave rest)).update_collection_packages.filter
              (fun r => r.record_id == u.id)) = _
            rw [hrows, postSaveAppend]
            simp only [updateRows, extraRelations, List.filter_append, e2, List.append_nil]
            rw [List.filter_eq_self.mpr]
            intro a ha
            simp only [List.mem_flatMap, List.mem_map] at ha
            obtain ⟨cp, _, p, _, rfl⟩ := ha
            simp
          · show ((postSaveAppend (dcRows x) (postSave rest)).update_references.filter
              (fun r => r.record_id == u.id)) = _
            rw [hrows, postSaveAppend]
            simp only [updateRows, extraRelations, List.filter_append, e3, List.append_nil]
            rw [List.filter_eq_self.mpr]
            intro a ha
            simp only [List.mem_map] at ha
            obtain ⟨r, _, rfl⟩ := ha
            simp
      · -- the node of record u is in the tail
        have hxid : ¬ updateDcId x = some u.id := by
          intro hxe
          have hin : u.id ∈ batchUpdateIds rest :=
            mem_batchUpdateIds_of_mem rest u arts (ExtraData.relations fr) hmem'
          simp only [batchUpdateIds, List.filterMap_cons, hxe] at hnodup
          exact (List.nodup_cons.mp hnodup).1 hin
        obtain ⟨d1, d2, d3⟩ := dcRows_filter_ne x u.id hxid
        obtain ⟨ihT, ihF⟩ := ih hmem' (batchUpdateIds_nodup_tail x rest hnodup)
        constructor
        · intro hrel
          obtain ⟨f1, f2, f3⟩ := ihT hrel
          refine ⟨?_, ?_, ?_⟩
          · show ((postSaveAppend (dcRows x) (postSave rest)).update_collections.filter
              (fun r => r.record_id == u.id)) = []
            rw [postSaveAppend]
            simp only [List.filter_append, d1, f1, List.nil_append]
          · show ((postSaveAppend (dcRows x) (postSave rest)).update_collection_packages.filter
              (fun r => r.record_id == u.id)) = []
            rw [postSaveAppend]
            simp only [List.filter_append, d2, f2, List.nil_append]
          · show ((postSaveAppend (dcRows x) (postSave rest)).update_references.filter
              (fun r => r.record_id == u.id)) = []
            rw [postSaveAppend]
            simp only [List.filter_append, d3, f3, List.nil_append]
        · intro hrel
          obtain ⟨f1, f2, f3⟩ := ihF hrel
          refine ⟨?_, ?_, ?_⟩
          · show ((postSaveAppend (dcRows x) (postSave rest)).update_collections.filter
              (fun r => r.record_id == u.id)) = _
            rw [postSaveAppend]
            simp only [List.filter_append, d1, f1, List.nil_append]
          · show ((postSaveAppend (dcRows x) (postSave rest)).update_collection_packages.filter
              (fun r => r.record_id == u.id)) = _
            rw [postSaveAppend]
            simp only [List.filter_append, d2, f2, List.nil_append]
          · show ((postSaveAppend (dcRows x) (postSave rest)).update_references.filter
              (fun r => r.record_id == u.id)) = _
            rw [postSaveAppend]
            simp only [List.filter_append, d3, f3, List.nil_append]

/-! ## Fixtures and witness for C5 -/

/-- A concrete update collection. -/
def c5Coll : UpdateCollection := ⟨"collection-1", "c1"⟩

/-- A concrete update collection package. -/
def c5Pkg : UpdateCollectionPackage := ⟨"bear", "0", "4.1", "1", "x86_64", "bear-4.1.rpm"⟩

/-- A concrete update reference. -/
def c5Ref : UpdateReference := ⟨"https://bugs.example.com/1", "BZ-1", "bug one", "bugzilla"⟩

/-- Concrete future relations carried on the nodes. -/
def c5Fr : FutureRelations := ⟨[(c5Coll, [c5Pkg])], [c5Ref]⟩

/-- A fresh update record with no persisted relations. -/
def c5New : UpdateRecord := ⟨"ERR-NEW", "title", "2020-01-01", "d1", 0, 0⟩

/-- A matched pre-existing update record that already has persisted rows. -/
def c5Old : UpdateRecord := ⟨"ERR-OLD", "title", "2020-01-01", "d2", 2, 1⟩

/-- A batch holding both records (and a None entry, which is skipped). -/
def c5Batch : List (Option DeclarativeContent) :=
  [some ⟨ContentUnit.updateRecord c5Old, [], ExtraData.relations c5Fr⟩,
   none,
   some ⟨ContentUnit.updateRecord c5New, [], ExtraData.relations c5Fr⟩]

theorem update_record_relations_attached_once_witness :
    (postSave c5Batch).update_collections.filter (fun r => r.record_id == "ERR-NEW")
        = [SavedCollection.mk "ERR-NEW" c5Coll]
      ∧ (postSave c5Batch).update_references.filter (fun r => r.record_id == "ERR-NEW")
          = [SavedReference.mk "ERR-NEW" c5Ref]
      ∧ (postSave c5Batch).update_collections.filter (fun r => r.record_id == "ERR-OLD") = []
      ∧ (postSave c5Batch).update_references.filter (fun r => r.record_id == "ERR-OLD") = [] := by
  have hnew := update_record_relations_attached_once c5Batch c5New [] c5Fr
    (by decide) (by decide)
  have hold := update_record_relations_attached_once c5Batch c5Old [] c5Fr
    (by decide) (by decide)
  obtain ⟨g1, g2, g3⟩ := hnew.2 (by decide)
  obtain ⟨o1, o2, o3⟩ := hold.1 (by decide)
  exact ⟨g1.trans (by decide), g3.trans (by decide), o1, o3⟩

/-! ## C8 and C10: the nested-tree orchestrator -/

theorem processResources_cons_404 (remote : RpmRemote) (env : ProbeEnv)
    (rn pk : String) (rest : List (String × String)) (counter : Nat)
    (h : env.status (probeUrl remote pk) = some 404) :
    processResources remote env ((rn, pk) :: rest) counter =
      (CreatedRepository.mk rn counter :: (processResources remote env rest (counter + 1)).1,
       (processResources remote env rest (counter + 1)).2) := by
  simp [processResources, h]

theorem processResources_cons_err (remote : RpmRemote) (env : ProbeEnv)
    (rn pk : String) (rest : List (String × String)) (counter : Nat) (s : Nat)
    (h : env.status (probeUrl remote pk) = some s) (hs : ¬ s = 404) :
    processResources remote env ((rn, pk) :: rest) counter =
      ([CreatedRepository.mk rn counter], Except.error s) := by
  simp [processResources, h, hs]

theorem processResources_cons_ok (remote : RpmRemote) (env : ProbeEnv)
    (rn pk : String) (rest : List (String × String)) (counter : Nat)
    (h : env.status (probeUrl remote pk) = none) :
    processResources remote env ((rn, pk) :: rest) counter =
      (CreatedRepository.mk rn counter :: (processResources remote env rest (counter + 1)).1,
       (processResources remote env rest (counter + 1)).2.map
         (fun runs => SubRun.mk pk counter :: runs)) := by
  simp [processResources, h]

theorem processResources_ok_of_no_fatal (remote : RpmRemote) (env : ProbeEnv) :
    ∀ rs : List (String × String), ∀ counter : Nat,
      (∀ p ∈ rs, env.status (probeUrl remote p.2) = none
        ∨ env.status (probeUrl remote p.2) = some 404) →
      ∃ runs, (processResources remote env rs counter).2 = Except.ok runs := by
  intro rs
  induction rs with
  | nil => exact fun _ _ => ⟨[], rfl⟩
  | cons e rest ih =>
      intro counter hall
      obtain ⟨rn, pk⟩ := e
      obtain ⟨runs, hruns⟩ := ih (counter + 1) (fun p hp => hall p (List.mem_cons_of_mem _ hp))
      rcases hall (rn, pk) (List.mem_cons_self _ _) with hnone | h404
      · refine ⟨SubRun.mk pk counter :: runs, ?_⟩
        rw [processResources_cons_ok remote env rn pk rest counter hnone]
        simp [hruns, Except.map]
      · refine ⟨runs, ?_⟩
        rw [processResources_cons_404 remote env rn pk rest counter h404]
        exact hruns

theorem processResources_uid_bound_nodup (remote : RpmRemote) (env : ProbeEnv) :
    ∀ rs : List (String × String), ∀ counter : Nat,
      (∀ v ∈ (processResources remote env rs counter).1.map CreatedRepository.uid, counter ≤ v)
      ∧ ((processResources remote env rs counter).1.map CreatedRepository.uid).Nodup := by
  intro rs
  induction rs with
  | nil =>
      intro counter
      constructor
      · intro v hv
        simp [processResources] at hv
      · simp [processResources]
  | cons e rest ih =>
      intro counter
      obtain ⟨rn, pk⟩ := e
      obtain ⟨hb, hn⟩ := ih (counter + 1)
      cases hs : env.status (probeUrl remote pk) with
      | none =>
          rw [processResources_cons_ok remote env rn pk rest counter hs]
          constructor
          · intro v hv
            simp only [List.map_cons, List.mem_cons] at hv
            rcases hv with heq | hv
            · rw [heq]
            · exact Nat.le_of_succ_le (hb v hv)
          · simp only [List.map_cons]
            rw [List.nodup_cons]
            exact ⟨fun hmem => absurd (hb _ hmem) (Nat.lt_irrefl counter), hn⟩
      | some code =>
          by_cases hc : code = 404
          · subst hc
            rw [processResources_cons_404 remote env rn pk rest counter hs]
            constructor
            · intro v hv
              simp only [List.map_cons, List.mem_cons] at hv
              rcases hv with heq | hv
              · rw [heq]
              · exact Nat.le_of_succ_le (hb v hv)
            · simp only [List.map_cons]
              rw [List.nodup_cons]
              exact ⟨fun hmem => absurd (hb _ hmem) (Nat.lt_irrefl counter), hn⟩
          · rw [processResources_cons_err remote env rn pk rest counter code hs hc]
            constructor
            · intro v hv
              simp only [List.map_cons, List.map_nil, List.mem_cons,
                List.not_mem_nil, or_false] at hv
              rw [hv]
            · simp

/-- C8: a probe answered 404 skips the sub-tree (the loop continues with the
remaining resources, and a run whose probes all succeed or 404 reaches the
primary pipeline without raising), while any other error status is re-raised
and aborts the whole synchronization. -/
theorem subtree_probe_404_skips_other_status_aborts (remote : RpmRemote) (env : ProbeEnv)
    (resource_name packages : String) (rest : List (String × String)) (counter : Nat)
    (k : KickstartData) (s : Nat) :
    (env.status (probeUrl remote packages) = some 404 →
      (processResources remote env ((resource_name, packages) :: rest) counter).2
        = (processResources remote env rest (counter + 1)).2)
    ∧ (env.status (probeUrl remote packages) = some s → ¬ s = 404 →
      (processResources remote env ((resource_name, packages) :: rest) counter).2
        = Except.error s)
    ∧ ((∀ p ∈ kickstartResources k, env.status (probeUrl remote p.2) = none
          ∨ env.status (probeUrl remote p.2) = some 404) → ¬ remote.url = "" →
        ∃ runs, (synchronizeModel remote env (some k)).result = Except.ok (runs, true))
    ∧ (∀ s2 : Nat,
        (processResources remote env (kickstartResources k) 0).2 = Except.error s2 →
        ¬ remote.url = "" →
        (synchronizeModel remote env (some k)).result = Except.error (SyncError.http s2)) := by
  refine ⟨?_, ?_, ?_, ?_⟩
  · intro h
    rw [processResources_cons_404 remote env resource_name packages rest counter h]
  · intro h hs
    rw [processResources_cons_err remote env resource_name packages rest counter s h hs]
  · intro hall hu
    obtain ⟨runs, hruns⟩ :=
      processResources_ok_of_no_fatal remote env (kickstartResources k) 0 hall
    exact ⟨runs, by simp [synchronizeModel, hu, hruns]⟩
  · intro s2 herr hu
    simp [synchronizeModel, hu, herr]

/-- C10: for each addon or variant resource, a repository with a fresh unique
name is created and saved before the probe outcome matters (it heads the
persisted list in every branch), a 404-skipped resource leaves its repository
persisted while the loop continues, and the repositories of one synchronize
call carry pairwise distinct uids. -/
theorem repository_created_before_probe_and_kept (remote : RpmRemote) (env : ProbeEnv)
    (resource_name packages : String) (rest : List (String × String)) (counter : Nat)
    (k : KickstartData) :
    ((processResources remote env ((resource_name, packages) :: rest) counter).1.head?
        = some (CreatedRepository.mk resource_name counter))
    ∧ (env.status (probeUrl remote packages) = some 404 →
        CreatedRepository.mk resource_name counter
            ∈ (processResources remote env ((resource_name, packages) :: rest) counter).1
        ∧ (processResources remote env ((resource_name, packages) :: rest) counter).2
            = (processResources remote env rest (counter + 1)).2)
    ∧ (((synchronizeModel remote env (some k)).savedRepositories.map
        CreatedRepository.uid).Nodup) := by
  refine ⟨?_, ?_, ?_⟩
  · cases hs : env.status (probeUrl remote packages) with
    | none =>
        rw [processResources_cons_ok remote env resource_name packages rest counter hs]
        rfl
    | some code =>
        by_cases hc : code = 404
        · subst hc
          rw [processResources_cons_404 remote env resource_name packages rest counter hs]
          rfl
        · rw [processResources_cons_err remote env resource_name packages rest counter
            code hs hc]
          rfl
  · intro h404
    rw [processResources_cons_404 remote env resource_name packages rest counter h404]
    exact ⟨List.mem_cons_self _ _, rfl⟩
  · by_cases hu : remote.url = ""
    · simp [synchronizeModel, hu]
    · cases ho : (processResources remote env (kickstartResources k) 0).2 with
      | error s2 =>
          have hnodup :=
            (processResources_uid_bound_nodup remote env (kickstartResources k) 0).2
          simpa [synchronizeModel, hu, ho] using hnodup
      | ok runs =>
          have hnodup :=
            (processResources_uid_bound_nodup remote env (kickstartResources k) 0).2
          simpa [synchronizeModel, hu, ho] using hnodup

/-! ## Fixtures and witnesses for C8 and C10 -/

/-- A remote for the orchestrator evaluations. -/
def pRemote : RpmRemote := ⟨"zoo", "http://example.com/base/", Policy.immediate⟩

/-- An environment where the addon sub-tree probe answers 404 and everything
else succeeds. -/
def pEnv404 : ProbeEnv :=
  ⟨fun u =>
    if u = "http://example.com/base/addon1/repodata/repomd.xml" then some 404 else none⟩

/-- A concrete distribution tree. -/
def pTree : DistTreeData := ⟨"1.0", "Fedora", "f", "30", "x86_64", "1234"⟩

/-- Kickstart data with one addon and one variant. -/
def pKick : KickstartData :=
  ⟨pTree, [], [], [⟨"v1", "v1", "Variant one", "variant", "variant1"⟩],
   [⟨"a1", "a1", "Addon one", "addon", "addon1"⟩]⟩

theorem subtree_probe_404_skips_other_status_aborts_witness :
    ((processResources pRemote pEnv404 [("addons", "addon1"), ("variants", "variant1")] 0).2
        = (processResources pRemote pEnv404 [("variants", "variant1")] 1).2)
    ∧ ∃ runs, (synchronizeModel pRemote pEnv404 (some pKick)).result
        = Except.ok (runs, true) := by
  have h := subtree_probe_404_skips_other_status_aborts pRemote pEnv404 "addons" "addon1"
    [("variants", "variant1")] 0 pKick 500
  exact ⟨h.1 (by decide), h.2.2.1 (by decide) (by decide)⟩

theorem repository_created_before_probe_and_kept_witness :
    ((processResources pRemote pEnv404
        [("addons", "addon1"), ("variants", "variant1")] 0).1.head?
      = some (CreatedRepository.mk "addons" 0))
    ∧ CreatedRepository.mk "addons" 0
        ∈ (processResources pRemote pEnv404
            [("addons", "addon1"), ("variants", "variant1")] 0).1
    ∧ ((synchronizeModel pRemote pEnv404 (some pKick)).savedRepositories.map
        CreatedRepository.uid).Nodup := by
  have h := repository_created_before_probe_and_kept pRemote pEnv404 "addons" "addon1"
    [("variants", "variant1")] 0 pKick
  exact ⟨h.1, (h.2.1 (by decide)).1, h.2.2⟩

end PulpRpm
